import Mathlib

/-!
# mautrix-go `bridgev2`: ghosts, user logins and the reaction store

A shallow embedding of `bridgev2/ghost.go`, `bridgev2/userlogin.go` and
`bridgev2/database/reaction.go`.

Modelling conventions

* Go objects that a method mutates through a pointer receiver are passed in by value and
  the updated object is returned (explicit state passing).
* Every call to an external collaborator (the Matrix intent, the remote network client,
  the storage layer, a caller-supplied closure) is appended to a `Trace`, in program
  order.  The answer of a collaborator is given by an oracle that receives the trace of
  all calls made before it, so successive calls may be answered differently; the
  theorems quantify over all oracles.
* Logging (`zerolog`) is not modelled: a logged error has no other effect in the source.
* `context.Context` arguments are dropped.
* A nil pointer / nil slice / nil func that the source itself tests or assigns is an
  `Option`; a method call through a nil interface is a fault (`none` result).
* Caches (`map[...]*T`) hold the current state of the object they point to; the cache
  lock is not modelled, runs are sequential.
* The `reaction` table is the list of its rows in storage order; a SQL statement is the
  function it computes on that list.
-/

set_option linter.dupNamespace false

namespace bridgev2

/-! ## Basic types -/

/-- Go `error` values; `Option Error` is an `error` that may be nil. -/
abbrev Error := String

/-- A Go `[]byte`. -/
abbrev Bytes := List Nat

/-- A Go `[32]byte` content hash. -/
abbrev Hash32 := List Nat

/-- The zero value `[32]byte{}`. -/
def zeroHash : Hash32 := List.replicate 32 0

/-- Go `map[string]V`: an association list with at most one entry per key in use. -/
structure GoMap (V : Type) where
  entries : List (String × V)

namespace GoMap

/-- The empty map. -/
def empty {V : Type} : GoMap V := ⟨[]⟩

/-- Go `v, ok := m[k]`. -/
def get {V : Type} (m : GoMap V) (k : String) : Option V :=
  (m.entries.find? (fun e => e.1 == k)).map (fun e => e.2)

/-- Go `delete(m, k)`. -/
def delete {V : Type} (m : GoMap V) (k : String) : GoMap V :=
  ⟨m.entries.filter (fun e => !(e.1 == k))⟩

/-- Go `m[k] = v`. -/
def set {V : Type} (m : GoMap V) (k : String) (v : V) : GoMap V :=
  ⟨(k, v) :: (m.delete k).entries⟩

end GoMap

/-- Byte-wise lexicographic order on strings, the order of Go's `<` on `string`
(on UTF-8 text it coincides with the code-point order used here). -/
def strLE (a b : String) : Prop := a.toList ≤ b.toList

instance strLE.decidable : DecidableRel strLE :=
  fun a b => inferInstanceAs (Decidable (a.toList ≤ b.toList))

namespace slices

/-- Go `slices.Sort` on a `[]string`: the ascending rearrangement of the slice. -/
def SortStrings (s : List String) : List String := List.insertionSort strLE s

/-- Go `slices.Equal`: same length and equal elements; a nil slice equals an empty one. -/
def Equal (a b : Option (List String)) : Bool :=
  decide (a.getD [] = b.getD [])

end slices

/-! ## Declarations used by the source but declared elsewhere -/

namespace event

/-- Go `event.BeeperProfileExtra`, the fields `UpdateContactInfo` fills in. -/
structure BeeperProfileExtra where
  RemoteID : String
  Identifiers : Option (List String)
  Service : String
  Network : String
  IsBridgeBot : Bool
  IsNetworkBot : Bool
  deriving DecidableEq, Repr

end event

namespace status

/-- Go `status.BridgeState`; only `StateEvent` is read by the source. -/
structure BridgeState where
  StateEvent : String
  deriving DecidableEq, Repr

end status

/-- Go `float64`, reduced to what `==` observes: a NaN, an infinity, or a finite number,
given by the rational it denotes (so `+0` and `-0` are one value). -/
inductive Float64 where
  | nan
  | inf (negative : Bool)
  | num (q : Rat)
  deriving DecidableEq, Repr

/-- Go `==` on `float64`: a NaN is equal to nothing, itself included. -/
def Float64.eq : Float64 → Float64 → Bool
  | .nan, _ => false
  | _, .nan => false
  | a, b => decide (a = b)

namespace database

/-- A dynamically typed Go value stored in an extension map (`map[string]any`). -/
inductive AnyValue where
  | null
  | bool (b : Bool)
  | int (i : Int)
  | str (s : String)
  | float (f : Float64)
  deriving DecidableEq, Repr

/-- Go `database.GhostMetadata`: the standard fields (embedded struct) and `Extra`. -/
structure GhostMetadata where
  IsBot : Bool
  Identifiers : Option (List String)
  ContactInfoSet : Bool
  Extra : Option (List (String × AnyValue))
  deriving DecidableEq, Repr

/-- Go `database.Ghost`: the persisted row behind a ghost. -/
structure Ghost where
  BridgeID : String
  ID : String
  Name : String
  AvatarID : String
  AvatarHash : Hash32
  AvatarMXC : String
  NameSet : Bool
  AvatarSet : Bool
  Metadata : GhostMetadata
  deriving DecidableEq, Repr

/-- Go `database.UserLoginMetadata`, the field read by the source. -/
structure UserLoginMetadata where
  RemoteName : String
  deriving DecidableEq, Repr

/-- Go `database.UserLogin`: the persisted row behind a login. -/
structure UserLogin where
  BridgeID : String
  UserMXID : String
  ID : String
  SpaceRoom : String
  Metadata : UserLoginMetadata
  deriving DecidableEq, Repr

/-- Go `database.UserPortal`: one conversation-membership row of a login. -/
structure UserPortal where
  BridgeID : String
  UserMXID : String
  LoginID : String
  PortalID : String
  deriving DecidableEq, Repr

end database

/-- Go `RemoteEventType`.  The four kinds named by `allowAggressiveUpdateForType` and
every other kind (`other n`). -/
inductive RemoteEventType where
  | RemoteEventUnknown
  | RemoteEventMessage
  | RemoteEventEdit
  | RemoteEventReaction
  | other (n : Nat)
  deriving DecidableEq, Repr

/-- Go `BridgeName`, the fields read by `UpdateContactInfo`. -/
structure BridgeName where
  BeeperBridgeType : String
  NetworkID : String
  deriving DecidableEq, Repr

/-- Go `NetworkGeneralCapabilities`. -/
structure NetworkGeneralCapabilities where
  AggressiveUpdateInfo : Bool
  deriving DecidableEq, Repr

/-! ## Calls to collaborators -/

/-- One call to an external collaborator, with its arguments. -/
inductive Call where
  /-- Call `Intent.SetDisplayName(ctx, name)`. -/
  | SetDisplayName (name : String)
  /-- Call `Intent.SetAvatarURL(ctx, avatarURL)`. -/
  | SetAvatarURL (avatarURL : String)
  /-- Call `Intent.SetExtraProfileMeta(ctx, meta)`. -/
  | SetExtraProfileMeta (profile : event.BeeperProfileExtra)
  /-- Call `Intent.UploadMedia(ctx, roomID, data, fileName, mimeType)`. -/
  | UploadMedia (roomID : String) (data : Bytes) (fileName : String) (mimeType : String)
  /-- Call `avatar.Get(ctx)` of the avatar with the given ID. -/
  | AvatarGet (avatarID : String)
  /-- Call `DB.Ghost.Update(ctx, ghost)`. -/
  | GhostUpdate (ghost : database.Ghost)
  /-- Call `Client.GetUserInfo(ctx, ghost)`. -/
  | GetUserInfo (ghost : database.Ghost)
  /-- Call `Client.LogoutRemote(ctx)`. -/
  | LogoutRemote
  /-- Call `client.Disconnect()`. -/
  | ClientDisconnect
  /-- Call `DB.UserPortal.GetAllForLogin(ctx, login)`. -/
  | GetAllForLogin (login : database.UserLogin)
  /-- Call `DB.UserLogin.Delete(ctx, id)`. -/
  | UserLoginDelete (id : String)
  /-- Statement `go ul.deleteSpace(ctx)`: the background task is scheduled. -/
  | GoDeleteSpace (id : String)
  /-- Statement `go ul.kickUserFromPortals(ctx, portals)`: the background task is scheduled. -/
  | GoKickUserFromPortals (id : String) (portals : List database.UserPortal)
  /-- Call `BridgeState.Send(state)`. -/
  | BridgeStateSend (state : status.BridgeState)
  /-- Call `BridgeState.Destroy()`. -/
  | BridgeStateDestroy
  /-- A call made by a caller-supplied closure. -/
  | External (tag : String)
  /-- Call `DB.Ghost.GetByID(ctx, id)`. -/
  | GhostGetByID (id : String)
  /-- Call `DB.Ghost.Insert(ctx, ghost)`. -/
  | GhostInsert (ghost : database.Ghost)
  /-- Call `Network.LoadUserLogin(ctx, login)`. -/
  | LoadUserLogin (login : database.UserLogin)
  /-- Call `br.NewBridgeStateQueue(login)`. -/
  | NewBridgeStateQueue (id : String)
  deriving DecidableEq, Repr

/-- The calls made so far, oldest first. -/
abbrev Trace := List Call

/-- Go `MatrixAPI` (the local intent): the answer to each call, given the calls before it. -/
structure MatrixAPI where
  SetDisplayName : Trace → String → Option Error
  SetAvatarURL : Trace → String → Option Error
  SetExtraProfileMeta : Trace → event.BeeperProfileExtra → Option Error
  UploadMedia : Trace → String → Bytes → String → String → Except Error String

/-- Library functions used by `Avatar.Reupload`: `sha256.Sum256`,
`http.DetectContentType` and `exmime.ExtensionFromMimetype`. -/
structure Stdlib where
  Sum256 : Bytes → Hash32
  DetectContentType : Bytes → String
  ExtensionFromMimetype : String → String

/-- Go `Ghost`: the row (embedded `*database.Ghost`) and the intent.  The `Bridge`
back-pointer is passed to the methods that use it. -/
structure Ghost where
  Ghost : database.Ghost
  Intent : MatrixAPI

/-- Go `Avatar`. -/
structure Avatar where
  ID : String
  Get : Trace → Except Error Bytes
  Remove : Bool
  MXC : String
  Hash : Hash32

/-- Go `UserInfo`.  `ExtraUpdates` returns its verdict, the ghost as it left it and the
calls it made. -/
structure UserInfo where
  Identifiers : Option (List String)
  Name : Option String
  Avatar : Option Avatar
  IsBot : Option Bool
  ExtraUpdates : Option (Ghost → Trace → Bool × Ghost × List Call)

/-- Go `NetworkAPI` (the remote network client of one login).  `Disconnect` answers
whether the client returned within the five-second bound. -/
structure NetworkAPI where
  GetUserInfo : Trace → database.Ghost → Except Error (Option UserInfo)
  Disconnect : Trace → Bool

/-- Go `UserLogin`: the row (embedded `*database.UserLogin`) and the client, which is nil
after `Disconnect`.  The `Bridge` and `User` back-pointers are passed to the methods. -/
structure UserLogin where
  UserLogin : database.UserLogin
  Client : Option NetworkAPI

/-- Go `User`, the part used by the login code: the per-user login cache. -/
structure User where
  MXID : String
  logins : GoMap UserLogin

/-- Go `NetworkConnector`, the methods used by the ghost and login code.
`LoadUserLogin` fills in `login.Client`; its answer is the client reference it left there
and its error. -/
structure NetworkConnector where
  GetName : BridgeName
  GetCapabilities : NetworkGeneralCapabilities
  LoadUserLogin : Trace → UserLogin → Option NetworkAPI × Option Error

/-- Go `MatrixConnector` (`br.Matrix`), the method used by the ghost code. -/
structure MatrixConnector where
  GhostIntent : String → MatrixAPI

/-- The storage layer (`br.DB`): the answer to each query, given the calls before it. -/
structure Database where
  UserPortalGetAllForLogin : Trace → database.UserLogin → List database.UserPortal × Option Error
  UserLoginDelete : Trace → String → Option Error
  GhostUpdate : Trace → database.Ghost → Option Error
  GhostGetByID : Trace → String → Option database.Ghost × Option Error
  GhostInsert : Trace → database.Ghost → Option Error

/-- Go `Bridge`, the part used here. -/
structure Bridge where
  ID : String
  DB : Database
  Matrix : MatrixConnector
  Network : NetworkConnector
  userLoginsByID : GoMap UserLogin
  ghostsByID : GoMap Ghost

/-- The signature of `(*Bridge).unlockedGetUserByMXID(ctx, mxid, onlyIfExists)`, which is
declared outside the source at hand: it returns `(user, err)` and may change the bridge
and make calls. -/
abbrev GetUserByMXID :=
  Bridge → Trace → String → Bool → (Option User × Option Error) × Bridge × List Call

/-! ## `ghost.go` -/

/-- Go `(*Avatar).Reupload`: returns `(uri, hash, err)` and the extended trace. -/
def Avatar.Reupload (lib : Stdlib) (a : Avatar) (intent : MatrixAPI) (currentHash : Hash32)
    (t : Trace) : (String × Hash32 × Option Error) × Trace :=
  if a.MXC ≠ "" then
    ((a.MXC, a.Hash, none), t)
  else
    let t1 := t ++ [Call.AvatarGet a.ID]
    match a.Get t with
    | .error err => (("", zeroHash, some err), t1)
    | .ok data =>
      let hash := lib.Sum256 data
      if hash = currentHash then
        (("", hash, none), t1)
      else
        let mime := lib.DetectContentType data
        let fileName := "avatar" ++ lib.ExtensionFromMimetype mime
        let t2 := t1 ++ [Call.UploadMedia "" data fileName mime]
        match intent.UploadMedia t1 "" data fileName mime with
        | .error err => (("", hash, some err), t2)
        | .ok uri => ((uri, hash, none), t2)

/-- Go `(*Ghost).UpdateName`. -/
def Ghost.UpdateName (ghost : bridgev2.Ghost) (t : Trace) (name : String) :
    Bool × bridgev2.Ghost × Trace :=
  if ghost.Ghost.Name = name ∧ ghost.Ghost.NameSet = true then
    (false, ghost, t)
  else
    let ghost1 : bridgev2.Ghost := { ghost with Ghost.Name := name, Ghost.NameSet := false }
    let t1 := t ++ [Call.SetDisplayName name]
    match ghost1.Intent.SetDisplayName t name with
    | some _ => (true, ghost1, t1)
    | none => (true, { ghost1 with Ghost.NameSet := true }, t1)

/-- The tail of `(*Ghost).UpdateAvatar` after the `if !avatar.Remove` block: clear the
confirmed flag, write the avatar URL, confirm on success. -/
def Ghost.updateAvatarWrite (ghost : bridgev2.Ghost) (t : Trace) :
    Bool × bridgev2.Ghost × Trace :=
  let ghost1 : bridgev2.Ghost := { ghost with Ghost.AvatarSet := false }
  let t1 := t ++ [Call.SetAvatarURL ghost1.Ghost.AvatarMXC]
  match ghost1.Intent.SetAvatarURL t ghost1.Ghost.AvatarMXC with
  | some _ => (true, ghost1, t1)
  | none => (true, { ghost1 with Ghost.AvatarSet := true }, t1)

/-- Go `(*Ghost).UpdateAvatar`. -/
def Ghost.UpdateAvatar (lib : Stdlib) (ghost : bridgev2.Ghost) (t : Trace) (avatar : Avatar) :
    Bool × bridgev2.Ghost × Trace :=
  if ghost.Ghost.AvatarID = avatar.ID ∧ ghost.Ghost.AvatarSet = true then
    (false, ghost, t)
  else
    let ghost1 : bridgev2.Ghost := { ghost with Ghost.AvatarID := avatar.ID }
    if avatar.Remove = false then
      match avatar.Reupload lib ghost1.Intent ghost1.Ghost.AvatarHash t with
      | ((_, _, some _), t1) => (true, ghost1, t1)
      | ((newMXC, newHash, none), t1) =>
        if newHash = ghost1.Ghost.AvatarHash then
          (true, ghost1, t1)
        else
          Ghost.updateAvatarWrite { ghost1 with Ghost.AvatarMXC := newMXC } t1
    else
      Ghost.updateAvatarWrite { ghost1 with Ghost.AvatarMXC := "" } t

/-- Go `(*Ghost).UpdateContactInfo`.  `slices.Sort` sorts the caller's slice in place;
the sorted slice is what the rest of the method sees. -/
def Ghost.UpdateContactInfo (br : Bridge) (ghost : bridgev2.Ghost) (t : Trace)
    (identifiers : Option (List String)) (isBot : Option Bool) :
    Bool × bridgev2.Ghost × Trace :=
  let identifiers := identifiers.map slices.SortStrings
  if ghost.Ghost.Metadata.ContactInfoSet = true ∧
      (identifiers = none ∨ slices.Equal identifiers ghost.Ghost.Metadata.Identifiers = true) ∧
      (isBot = none ∨ isBot = some ghost.Ghost.Metadata.IsBot) then
    (false, ghost, t)
  else
    let ghost1 : bridgev2.Ghost :=
      match identifiers with
      | some ids => { ghost with Ghost.Metadata.Identifiers := some ids }
      | none => ghost
    let ghost2 : bridgev2.Ghost :=
      match isBot with
      | some b => { ghost1 with Ghost.Metadata.IsBot := b }
      | none => ghost1
    let bridgeName := br.Network.GetName
    let profile : event.BeeperProfileExtra :=
      { RemoteID := ghost2.Ghost.ID
        Identifiers := ghost2.Ghost.Metadata.Identifiers
        Service := bridgeName.BeeperBridgeType
        Network := bridgeName.NetworkID
        IsBridgeBot := false
        IsNetworkBot := ghost2.Ghost.Metadata.IsBot }
    let t1 := t ++ [Call.SetExtraProfileMeta profile]
    match ghost2.Intent.SetExtraProfileMeta t profile with
    | some _ => (true, ghost2, t1)
    | none => (true, { ghost2 with Ghost.Metadata.ContactInfoSet := true }, t1)

/-- Go `(*Bridge).allowAggressiveUpdateForType`. -/
def Bridge.allowAggressiveUpdateForType (br : Bridge) (evtType : RemoteEventType) : Bool :=
  if br.Network.GetCapabilities.AggressiveUpdateInfo = false then
    false
  else
    match evtType with
    | .RemoteEventUnknown => true
    | .RemoteEventMessage => true
    | .RemoteEventEdit => true
    | .RemoteEventReaction => true
    | _ => false

/-- Go `(*Ghost).UpdateInfo`.  The local `update` is threaded through the four optional
sub-updates; each `update = f(...) || update` runs `f` first. -/
def Ghost.UpdateInfo (lib : Stdlib) (br : Bridge) (ghost : bridgev2.Ghost) (t : Trace)
    (info : UserInfo) : bridgev2.Ghost × Trace :=
  let update := false
  let s1 : Bool × bridgev2.Ghost × Trace :=
    match info.Name with
    | some name =>
      let r := ghost.UpdateName t name
      (r.1 || update, r.2.1, r.2.2)
    | none => (update, ghost, t)
  let s2 : Bool × bridgev2.Ghost × Trace :=
    match info.Avatar with
    | some avatar =>
      let r := s1.2.1.UpdateAvatar lib s1.2.2 avatar
      (r.1 || s1.1, r.2.1, r.2.2)
    | none => s1
  let s3 : Bool × bridgev2.Ghost × Trace :=
    if info.Identifiers ≠ none ∨ info.IsBot ≠ none then
      let r := s2.2.1.UpdateContactInfo br s2.2.2 info.Identifiers info.IsBot
      (r.1 || s2.1, r.2.1, r.2.2)
    else s2
  let s4 : Bool × bridgev2.Ghost × Trace :=
    match info.ExtraUpdates with
    | some extraUpdates =>
      let r := extraUpdates s3.2.1 s3.2.2
      (r.1 || s3.1, r.2.1, s3.2.2 ++ r.2.2)
    | none => s3
  if s4.1 = true then
    (s4.2.1, s4.2.2 ++ [Call.GhostUpdate s4.2.1.Ghost])
  else
    (s4.2.1, s4.2.2)

/-- Go `(*Ghost).UpdateInfoIfNecessary`.  The result is `none` when the call through
`source.Client` faults because the client is nil. -/
def Ghost.UpdateInfoIfNecessary (lib : Stdlib) (br : Bridge) (ghost : bridgev2.Ghost)
    (t : Trace) (source : UserLogin) (evtType : RemoteEventType) :
    Option (bridgev2.Ghost × Trace) :=
  if ghost.Ghost.Name ≠ "" ∧ ghost.Ghost.NameSet = true ∧
      br.allowAggressiveUpdateForType evtType = false then
    some (ghost, t)
  else
    match source.Client with
    | none => none
    | some client =>
      let t1 := t ++ [Call.GetUserInfo ghost.Ghost]
      match client.GetUserInfo t ghost.Ghost with
      | .error _ => some (ghost, t1)
      | .ok none => some (ghost, t1)
      | .ok (some info) => some (ghost.UpdateInfo lib br t1 info)

/-- The zero value of `database.Ghost`. -/
def database.Ghost.zero : database.Ghost where
  BridgeID := ""
  ID := ""
  Name := ""
  AvatarID := ""
  AvatarHash := zeroHash
  AvatarMXC := ""
  NameSet := false
  AvatarSet := false
  Metadata := { IsBot := false, Identifiers := none, ContactInfoSet := false, Extra := none }

/-- The tail of `(*Bridge).loadGhost`: build the in-memory ghost around the row, register
it in `ghostsByID` under the row's ID and return it. -/
def Bridge.registerGhost (br : Bridge) (t : Trace) (dbGhost : database.Ghost) :
    (Option Ghost × Option Error) × Bridge × Trace :=
  let ghost : Ghost := { Ghost := dbGhost, Intent := br.Matrix.GhostIntent dbGhost.ID }
  ((some ghost, none), { br with ghostsByID := br.ghostsByID.set ghost.Ghost.ID ghost }, t)

/-- Go `(*Bridge).loadGhost`: returns `(ghost, err)`, the bridge and the trace. -/
def Bridge.loadGhost (br : Bridge) (t : Trace) (dbGhost : Option database.Ghost)
    (queryErr : Option Error) (id : Option String) :
    (Option Ghost × Option Error) × Bridge × Trace :=
  match queryErr with
  | some e => ((none, some ("failed to query db: " ++ e)), br, t)
  | none =>
    match dbGhost with
    | some row => br.registerGhost t row
    | none =>
      match id with
      | none => ((none, none), br, t)
      | some id =>
        let row : database.Ghost := { database.Ghost.zero with BridgeID := br.ID, ID := id }
        let t1 := t ++ [Call.GhostInsert row]
        match br.DB.GhostInsert t row with
        | some e => ((none, some ("failed to insert new ghost: " ++ e)), br, t1)
        | none => br.registerGhost t1 row

/-- Go `(*Bridge).unlockedGetGhostByID`. -/
def Bridge.unlockedGetGhostByID (br : Bridge) (t : Trace) (id : String)
    (onlyIfExists : Bool) : (Option Ghost × Option Error) × Bridge × Trace :=
  match br.ghostsByID.get id with
  | some cached => ((some cached, none), br, t)
  | none =>
    let idPtr : Option String := if onlyIfExists = true then none else some id
    let r := br.DB.GhostGetByID t id
    br.loadGhost (t ++ [Call.GhostGetByID id]) r.1 r.2 idPtr

/-- Go `(*Bridge).GetGhostByID`; the cache lock is not modelled. -/
def Bridge.GetGhostByID (br : Bridge) (t : Trace) (id : String) :
    (Option Ghost × Option Error) × Bridge × Trace :=
  br.unlockedGetGhostByID t id false

/-- A run of ghost lookups, one `GetGhostByID` per listed id, each on the bridge and trace
left by the one before it; the results are dropped. -/
def Bridge.lookupGhosts (br : Bridge) (t : Trace) : List String → Bridge × Trace
  | [] => (br, t)
  | id :: ids =>
    let r := br.GetGhostByID t id
    Bridge.lookupGhosts r.2.1 r.2.2 ids

/-- Go `func(context.Context, T) bool`, an updater of an entity of type `T`: its verdict,
the entity as it left it and the calls it made. -/
abbrev Updater (T : Type) := T → Trace → Bool × T × List Call

/-- Go `MergeExtraUpdaters`.  The `for` loop threads the local `update`, the entity and
the calls made so far; each `update = f(ctx, obj) || update` runs `f` first. -/
def MergeExtraUpdaters {T : Type} (funcs : List (Updater T)) : Updater T :=
  fun obj t =>
    funcs.foldl
      (fun (acc : Bool × T × List Call) f =>
        let r := f acc.2.1 (t ++ acc.2.2)
        (r.1 || acc.1, r.2.1, acc.2.2 ++ r.2.2))
      (false, obj, [])

/-- Running each updater once, in the given order, each on the entity left by the one
before it, and collecting the verdicts: the behaviour the merge combinator is specified
to have. -/
def runEachOnce {T : Type} : List (Updater T) → T → Trace → List Bool × T × List Call
  | [], obj, _ => ([], obj, [])
  | f :: fs, obj, t =>
    let r := f obj t
    let rest := runEachOnce fs r.2.1 (t ++ r.2.2)
    (r.1 :: rest.1, rest.2.1, r.2.2 ++ rest.2.2)

/-- Go `comparable`: a type with the operator `==`, given here as `eq`. -/
class Comparable (M : Type) where
  eq : M → M → Bool

instance Comparable.string : Comparable String where
  eq := fun a b => decide (a = b)

instance Comparable.bool : Comparable Bool where
  eq := fun a b => decide (a = b)

instance Comparable.int : Comparable Int where
  eq := fun a b => decide (a = b)

instance Comparable.float64 : Comparable Float64 where
  eq := Float64.eq

/-- A Go type that can instantiate the type parameter `MetaType`: how a value is held in
an `any` (`toAny`) and the type assertion `x.(MetaType)` on an `any` (`typeAssert`), which
succeeds exactly on the values of that dynamic type. -/
class MetaType (M : Type) where
  toAny : M → database.AnyValue
  typeAssert : database.AnyValue → Option M
  typeAssert_toAny : ∀ v, typeAssert (toAny v) = some v
  toAny_of_typeAssert : ∀ a v, typeAssert a = some v → a = toAny v

instance MetaType.string : MetaType String where
  toAny := database.AnyValue.str
  typeAssert := fun a => match a with
    | .str s => some s
    | _ => none
  typeAssert_toAny := fun _ => rfl
  toAny_of_typeAssert := fun a v h => by
    cases a <;> simp at h
    rw [h]

instance MetaType.bool : MetaType Bool where
  toAny := database.AnyValue.bool
  typeAssert := fun a => match a with
    | .bool b => some b
    | _ => none
  typeAssert_toAny := fun _ => rfl
  toAny_of_typeAssert := fun a v h => by
    cases a <;> simp at h
    rw [h]

instance MetaType.int : MetaType Int where
  toAny := database.AnyValue.int
  typeAssert := fun a => match a with
    | .int i => some i
    | _ => none
  typeAssert_toAny := fun _ => rfl
  toAny_of_typeAssert := fun a v h => by
    cases a <;> simp at h
    rw [h]

instance MetaType.float64 : MetaType Float64 where
  toAny := database.AnyValue.float
  typeAssert := fun a => match a with
    | .float f => some f
    | _ => none
  typeAssert_toAny := fun _ => rfl
  toAny_of_typeAssert := fun a v h => by
    cases a <;> simp at h
    rw [h]

/-- Go `m[key]` on a `map[string]any` that may be nil: the stored value, if any. -/
def mapIndex (m : Option (List (String × database.AnyValue))) (key : String) :
    Option database.AnyValue :=
  match m with
  | some entries => (GoMap.mk entries).get key
  | none => none

/-- Go `simpleMetadataUpdater`, for `T = *Ghost` (`Portal` is declared outside the
source at hand).  `getter` returns `some v` for `(v, true)` and `none` for `(_, false)`.
The result is `none` when `meta[key] = value` faults because the map is nil. -/
def simpleMetadataUpdater {M : Type} [Comparable M] [MetaType M] (key : String) (value : M)
    (getter : Option (List (String × database.AnyValue)) → String → Option M)
    (obj : Ghost) : Option (Bool × Ghost) :=
  let extra := obj.Ghost.Metadata.Extra
  -- `ok && currentVal == value`
  let unchanged : Bool :=
    match getter extra key with
    | some currentVal => Comparable.eq currentVal value
    | none => false
  if unchanged = true then
    some (false, obj)
  else
    match extra with
    | none => none
    | some entries =>
      some (true,
        { obj with
          Ghost.Metadata.Extra :=
            some ((GoMap.mk entries).set key (MetaType.toAny value)).entries })

/-- Go `SimpleMetadataUpdater`, for `T = *Ghost`: the getter is `m[key].(MetaType)`. -/
def SimpleMetadataUpdater {M : Type} [Comparable M] [MetaType M] (key : String) (value : M) :
    Ghost → Option (Bool × Ghost) :=
  simpleMetadataUpdater key value
    (fun m key => (mapIndex m key).bind MetaType.typeAssert)

/-! ## `userlogin.go` -/

/-- Go `(*Bridge).loadUserLogin`.  `getUser` stands for `br.unlockedGetUserByMXID`.  The
user object is returned as the method left it.  The result is `none` when the method
faults on a nil user (`user.Log` after a lookup that found no user). -/
def Bridge.loadUserLogin (getUser : GetUserByMXID) (br : Bridge) (t : Trace)
    (user : Option User) (dbUserLogin : Option database.UserLogin) :
    Option ((Option UserLogin × Option Error) × Bridge × Option User × Trace) :=
  match dbUserLogin with
  | none => some ((none, none), br, user, t)
  | some row =>
    let found : (Option User × Option Error) × Bridge × Trace :=
      match user with
      | some u => ((some u, none), br, t)
      | none =>
        let r := getUser br t row.UserMXID true
        (r.1, r.2.1, t ++ r.2.2)
    match found.1.2 with
    | some e => some ((none, some ("failed to get user: " ++ e)), found.2.1, none, found.2.2)
    | none =>
      match found.1.1 with
      | none => none
      | some u =>
        let br1 := found.2.1
        let t1 := found.2.2
        let userLogin : UserLogin := { UserLogin := row, Client := none }
        let r := br1.Network.LoadUserLogin t1 userLogin
        let userLogin1 : UserLogin := { userLogin with Client := r.1 }
        let t2 := t1 ++ [Call.LoadUserLogin row]
        match r.2 with
        | some _ => some ((none, none), br1, some u, t2)
        | none =>
          let u1 : User := { u with logins := u.logins.set userLogin1.UserLogin.ID userLogin1 }
          let br2 : Bridge :=
            { br1 with
              userLoginsByID := br1.userLoginsByID.set userLogin1.UserLogin.ID userLogin1 }
          some ((some userLogin1, none), br2, some u1,
            t2 ++ [Call.NewBridgeStateQueue userLogin1.UserLogin.ID])

/-- The `for` loop of `(*Bridge).loadManyUserLogins`, with `output` as built so far. -/
def Bridge.loadManyUserLoginsLoop (getUser : GetUserByMXID) (br : Bridge) (t : Trace)
    (user : Option User) (output : List UserLogin) :
    List database.UserLogin →
      Option ((Option (List UserLogin) × Option Error) × Bridge × Option User × Trace)
  | [] => some ((some output, none), br, user, t)
  | dbLogin :: logins =>
    match br.userLoginsByID.get dbLogin.ID with
    | some cached =>
      Bridge.loadManyUserLoginsLoop getUser br t user (output ++ [cached]) logins
    | none =>
      match br.loadUserLogin getUser t user (some dbLogin) with
      | none => none
      | some ((_, some err), br1, user1, t1) => some ((none, some err), br1, user1, t1)
      | some ((some loaded, none), br1, user1, t1) =>
        Bridge.loadManyUserLoginsLoop getUser br1 t1
          (match user with
            | some _ => user1
            | none => none)
          (output ++ [loaded]) logins
      | some ((none, none), br1, user1, t1) =>
        Bridge.loadManyUserLoginsLoop getUser br1 t1
          (match user with
            | some _ => user1
            | none => none)
          output logins

/-- Go `(*Bridge).loadManyUserLogins`: returns `(output, err)`, the bridge, the given user
as the method left it, and the trace. -/
def Bridge.loadManyUserLogins (getUser : GetUserByMXID) (br : Bridge) (t : Trace)
    (user : Option User) (logins : List database.UserLogin) :
    Option ((Option (List UserLogin) × Option Error) × Bridge × Option User × Trace) :=
  Bridge.loadManyUserLoginsLoop getUser br t user [] logins

/-- The batch load as the specification words it, for a known owning user: each row in
order yields the cached instance if its id is cached (no attach), is omitted with both
caches untouched if its attach step fails, and otherwise yields the new login, which is
registered in both caches. -/
def loadEach (br : Bridge) (user : User) (t : Trace) :
    List database.UserLogin → List UserLogin × Bridge × User × Trace
  | [] => ([], br, user, t)
  | row :: rows =>
    match br.userLoginsByID.get row.ID with
    | some cached =>
      let r := loadEach br user t rows
      (cached :: r.1, r.2)
    | none =>
      let a := br.Network.LoadUserLogin t { UserLogin := row, Client := none }
      match a.2 with
      | some _ => loadEach br user (t ++ [Call.LoadUserLogin row]) rows
      | none =>
        let ul : UserLogin := { UserLogin := row, Client := a.1 }
        let r := loadEach
          { br with userLoginsByID := br.userLoginsByID.set row.ID ul }
          { user with logins := user.logins.set row.ID ul }
          (t ++ [Call.LoadUserLogin row, Call.NewBridgeStateQueue row.ID]) rows
        (ul :: r.1, r.2)

/-- Go `(*Bridge).GetCachedUserLoginByID`; a nil result is `none`. -/
def Bridge.GetCachedUserLoginByID (br : Bridge) (id : String) : Option UserLogin :=
  br.userLoginsByID.get id

/-- Go `(*UserLogin).Disconnect`.  `done` gives the calls made by the deferred callback.
Both arms of the `select` (acknowledged, timed out after five seconds) continue alike. -/
def UserLogin.Disconnect (ul : bridgev2.UserLogin) (t : Trace)
    (done : Option (Trace → List Call)) : bridgev2.UserLogin × Trace :=
  let r : bridgev2.UserLogin × Trace :=
    match ul.Client with
    | some client =>
      let ul1 : bridgev2.UserLogin := { ul with Client := none }
      let t1 := t ++ [Call.ClientDisconnect]
      if client.Disconnect t = true then (ul1, t1) else (ul1, t1)
    | none => (ul, t)
  match done with
  | some f => (r.1, r.2 ++ f r.2)
  | none => r

/-- Go `(*UserLogin).Delete`.  `br` is `ul.Bridge` and `user` is `ul.User`; the result is
`none` when `ul.Client.LogoutRemote` faults because the client is nil.  The two `go`
statements only schedule their tasks. -/
def UserLogin.Delete (br : Bridge) (user : User) (ul : bridgev2.UserLogin) (t : Trace)
    (state : status.BridgeState) (logoutRemote : Bool) :
    Option (Bridge × User × bridgev2.UserLogin × Trace) :=
  let r : Option (bridgev2.UserLogin × Trace) :=
    if logoutRemote = true then
      match ul.Client with
      | none => none
      | some _ => some (ul, t ++ [Call.LogoutRemote])
    else
      some (ul.Disconnect t none)
  match r with
  | none => none
  | some (ul1, t1) =>
    let portals := (br.DB.UserPortalGetAllForLogin t1 ul1.UserLogin).1
    let t2 := t1 ++ [Call.GetAllForLogin ul1.UserLogin]
    let _err := br.DB.UserLoginDelete t2 ul1.UserLogin.ID
    let t3 := t2 ++ [Call.UserLoginDelete ul1.UserLogin.ID]
    let user1 : User := { user with logins := user.logins.delete ul1.UserLogin.ID }
    let br1 : Bridge := { br with userLoginsByID := br.userLoginsByID.delete ul1.UserLogin.ID }
    let t4 := t3 ++ [Call.GoDeleteSpace ul1.UserLogin.ID,
      Call.GoKickUserFromPortals ul1.UserLogin.ID portals]
    let t5 := if state.StateEvent ≠ "" then t4 ++ [Call.BridgeStateSend state] else t4
    some (br1, user1, ul1, t5 ++ [Call.BridgeStateDestroy])

/-- Whether a call is the storage update of a ghost row. -/
def Call.isGhostUpdate : Call → Bool
  | .GhostUpdate _ => true
  | _ => false

/-! ## `database/reaction.go` -/

namespace time

/-- Go `time.Time` reduced to the instant it names (seconds since the Unix epoch and
nanoseconds within the second) and the name of its location; the monotonic clock reading
is dropped. -/
structure Time where
  sec : Int
  nsec : Nat
  loc : String
  deriving DecidableEq, Repr

/-- The two's-complement wrap of an integer to an `int64`. -/
def wrapInt64 (x : Int) : Int := (x + 2 ^ 63) % 2 ^ 64 - 2 ^ 63

/-- Go `(time.Time).UnixNano`, computed in `int64`. -/
def Time.UnixNano (t : Time) : Int := wrapInt64 (t.sec * 1000000000 + t.nsec)

/-- Go `time.Unix(sec, nsec)`: the local time of that instant, with `nsec` normalised
into the second. -/
def Unix (sec nsec : Int) : Time :=
  { sec := sec + nsec / 1000000000, nsec := (nsec % 1000000000).toNat, loc := "Local" }

end time

namespace database

/-- Go `networkid.PortalKey`. -/
structure PortalKey where
  ID : String
  Receiver : String
  deriving DecidableEq, Repr

/-- Go `StandardReactionMetadata`; the field is tagged `json:"emoji,omitempty"`. -/
structure StandardReactionMetadata where
  Emoji : String
  deriving DecidableEq, Repr

/-- Go `ReactionMetadata`: the embedded standard fields and the extension map. -/
structure ReactionMetadata where
  StandardReactionMetadata : StandardReactionMetadata
  Extra : Option (List (String × AnyValue))
  deriving DecidableEq, Repr

/-- Go `Reaction`. -/
structure Reaction where
  BridgeID : String
  Room : PortalKey
  MessageID : String
  MessagePartID : String
  SenderID : String
  EmojiID : String
  MXID : String
  Timestamp : time.Time
  Metadata : ReactionMetadata
  deriving DecidableEq, Repr

/-- A JSON object as a flat record of top-level keys; the textual syntax produced and
read by `encoding/json` is not modelled. -/
abbrev JSONObject := List (String × AnyValue)

/-- Modelled from the spec: `marshalMerge`, declared in package `database` outside the
source at hand.  "Encoding re-flattens the known field alongside the extension map's
keys into one object": the object holds the extension map's entries and, under `emoji`,
the known field, which its `omitempty` tag leaves out when it is empty. -/
def marshalMerge (std : StandardReactionMetadata)
    (extra : Option (List (String × AnyValue))) : JSONObject :=
  if std.Emoji = "" then
    extra.getD []
  else
    ((GoMap.mk (extra.getD [])).set "emoji" (AnyValue.str std.Emoji)).entries

/-- Modelled from the spec: `unmarshalMerge`, declared in package `database` outside the
source at hand.  "Decoding populates the known `emoji` field and places every other
top-level key into the extension map"; "an absent extension map decodes to an empty,
non-null map".  A value under `emoji` that is not a string is a decoding error. -/
def unmarshalMerge (data : JSONObject) :
    Except Error (StandardReactionMetadata × Option (List (String × AnyValue))) :=
  let extra : Option (List (String × AnyValue)) :=
    some ((GoMap.mk data).delete "emoji").entries
  match (GoMap.mk data).get "emoji" with
  | none => .ok ({ Emoji := "" }, extra)
  | some (AnyValue.str s) => .ok ({ Emoji := s }, extra)
  | some AnyValue.null => .ok ({ Emoji := "" }, extra)
  | some _ => .error "json: cannot unmarshal value into Go struct field .emoji of type string"

/-- Go `(*ReactionMetadata).UnmarshalJSON`, on a zero receiver: the decoded value. -/
def ReactionMetadata.UnmarshalJSON (data : JSONObject) : Except Error ReactionMetadata :=
  match unmarshalMerge data with
  | .error e => .error e
  | .ok (std, extra) => .ok { StandardReactionMetadata := std, Extra := extra }

/-- Go `(*ReactionMetadata).MarshalJSON`. -/
def ReactionMetadata.MarshalJSON (rm : ReactionMetadata) : JSONObject :=
  marshalMerge rm.StandardReactionMetadata rm.Extra

/-- One row of the `reaction` table, by column. -/
structure ReactionRow where
  bridge_id : String
  message_id : String
  message_part_id : String
  sender_id : String
  emoji_id : String
  room_id : String
  room_receiver : String
  mxid : String
  timestamp : Int
  metadata : JSONObject
  deriving DecidableEq, Repr

/-- The `reaction` table: its rows in storage order. -/
abbrev ReactionTable := List ReactionRow

/-- The columns of the conflict target of `upsertReactionQuery`:
`(bridge_id, room_receiver, message_id, message_part_id, sender_id, emoji_id)`. -/
def ReactionRow.conflictKey (row : ReactionRow) :
    String × String × String × String × String × String :=
  (row.bridge_id, row.room_receiver, row.message_id, row.message_part_id, row.sender_id,
    row.emoji_id)

/-- The table holds at most one row per conflict key (the unique constraint the
`ON CONFLICT` clause names). -/
def ReactionTable.Unique (table : ReactionTable) : Prop :=
  table.Pairwise (fun a b => a.conflictKey ≠ b.conflictKey)

/-- The statement `upsertReactionQuery`: `INSERT ... ON CONFLICT (bridge_id,
room_receiver, message_id, message_part_id, sender_id, emoji_id) DO UPDATE SET
mxid=excluded.mxid, timestamp=excluded.timestamp, metadata=excluded.metadata`. -/
def upsertReactionQuery (table : ReactionTable) (excluded : ReactionRow) : ReactionTable :=
  if table.any (fun row => decide (row.conflictKey = excluded.conflictKey)) = true then
    table.map (fun row =>
      if row.conflictKey = excluded.conflictKey then
        { row with
          mxid := excluded.mxid, timestamp := excluded.timestamp,
          metadata := excluded.metadata }
      else row)
  else
    table ++ [excluded]

/-- The `WHERE` clause shared by `getReactionByIDQuery` and `deleteReactionQuery`:
`bridge_id=$1 AND message_id=$2 AND message_part_id=$3 AND sender_id=$4 AND emoji_id=$5`. -/
def ReactionRow.matchesID (row : ReactionRow) (bridgeID messageID messagePartID senderID
    emojiID : String) : Bool :=
  decide (row.bridge_id = bridgeID ∧ row.message_id = messageID ∧
    row.message_part_id = messagePartID ∧ row.sender_id = senderID ∧ row.emoji_id = emojiID)

/-- The statement `deleteReactionQuery`: `DELETE FROM reaction WHERE` the five columns
match. -/
def deleteReactionQuery (table : ReactionTable) (bridgeID messageID messagePartID senderID
    emojiID : String) : ReactionTable :=
  table.filter (fun row => !row.matchesID bridgeID messageID messagePartID senderID emojiID)

/-- The statement `getReactionByIDQuery`: the rows whose five columns match, in storage
order. -/
def getReactionByIDQuery (table : ReactionTable) (bridgeID messageID messagePartID senderID
    emojiID : String) : List ReactionRow :=
  table.filter (fun row => row.matchesID bridgeID messageID messagePartID senderID emojiID)

/-- Modelled from the spec: `ensureBridgeIDMatches`, declared in package `database`
outside the source at hand.  "Every read/write validates that the reaction's bridge
identifier matches the store's configured bridge identifier, rejecting cross-tenant
mixing as a programming-error-class fault": the result is the identifier when the two
agree and `none`, the fault, when they differ. -/
def ensureBridgeIDMatches (ptr : String) (expected : String) : Option String :=
  if ptr = expected then some ptr else none

/-- Go `(*Reaction).sqlVariables`: the reaction as the method left it (a nil extension
map becomes an empty one) and the ten column values. -/
def Reaction.sqlVariables (r : Reaction) : Reaction × ReactionRow :=
  let r1 : Reaction :=
    match r.Metadata.Extra with
    | none => { r with Metadata.Extra := some [] }
    | some _ => r
  (r1,
    { bridge_id := r1.BridgeID, message_id := r1.MessageID,
      message_part_id := r1.MessagePartID, sender_id := r1.SenderID, emoji_id := r1.EmojiID,
      room_id := r1.Room.ID, room_receiver := r1.Room.Receiver, mxid := r1.MXID,
      timestamp := r1.Timestamp.UnixNano, metadata := r1.Metadata.MarshalJSON })

/-- Go `(*Reaction).Scan`, on a zero receiver. -/
def Reaction.Scan (row : ReactionRow) : Except Error Reaction :=
  match ReactionMetadata.UnmarshalJSON row.metadata with
  | .error e => .error e
  | .ok metadata =>
    let metadata1 : ReactionMetadata :=
      match metadata.Extra with
      | none => { metadata with Extra := some [] }
      | some _ => metadata
    .ok
      { BridgeID := row.bridge_id, MessageID := row.message_id,
        MessagePartID := row.message_part_id, SenderID := row.sender_id,
        EmojiID := row.emoji_id, Room := { ID := row.room_id, Receiver := row.room_receiver },
        MXID := row.mxid, Timestamp := time.Unix 0 row.timestamp, Metadata := metadata1 }

/-- A value bound to a statement parameter or read from a result column. -/
inductive SQLValue where
  | text (s : String)
  | integer (i : Int)
  | json (o : JSONObject)
  deriving DecidableEq, Repr

/-- The column list of the `INSERT` in `upsertReactionQuery`, in order. -/
def upsertColumns : List String :=
  ["bridge_id", "message_id", "message_part_id", "sender_id", "emoji_id", "room_id",
    "room_receiver", "mxid", "timestamp", "metadata"]

/-- The column list of the `SELECT` in `getReactionBaseQuery`, in order. -/
def selectColumns : List String :=
  ["bridge_id", "message_id", "message_part_id", "sender_id", "emoji_id", "room_id",
    "room_receiver", "mxid", "timestamp", "metadata"]

/-- The slice returned by `(*Reaction).sqlVariables`, `[]any` of ten values in the order
of the source. -/
def Reaction.sqlVariableList (r : Reaction) : Reaction × List SQLValue :=
  let r1 : Reaction :=
    match r.Metadata.Extra with
    | none => { r with Metadata.Extra := some [] }
    | some _ => r
  (r1,
    [SQLValue.text r1.BridgeID, SQLValue.text r1.MessageID, SQLValue.text r1.MessagePartID,
      SQLValue.text r1.SenderID, SQLValue.text r1.EmojiID, SQLValue.text r1.Room.ID,
      SQLValue.text r1.Room.Receiver, SQLValue.text r1.MXID,
      SQLValue.integer r1.Timestamp.UnixNano, SQLValue.json r1.Metadata.MarshalJSON])

/-- The `row.Scan(...)` call of `(*Reaction).Scan` with its ten destinations in the order
of the source, followed by the rest of the method, on a zero receiver.  A row of another
shape is a scan error. -/
def Reaction.ScanValues (values : List SQLValue) : Except Error Reaction :=
  match values with
  | [SQLValue.text bridgeID, SQLValue.text messageID, SQLValue.text messagePartID,
      SQLValue.text senderID, SQLValue.text emojiID, SQLValue.text roomID,
      SQLValue.text roomReceiver, SQLValue.text mxid, SQLValue.integer timestamp,
      SQLValue.json metadataJSON] =>
    match ReactionMetadata.UnmarshalJSON metadataJSON with
    | .error e => .error e
    | .ok metadata =>
      let metadata1 : ReactionMetadata :=
        match metadata.Extra with
        | none => { metadata with Extra := some [] }
        | some _ => metadata
      .ok
        { BridgeID := bridgeID, MessageID := messageID, MessagePartID := messagePartID,
          SenderID := senderID, EmojiID := emojiID,
          Room := { ID := roomID, Receiver := roomReceiver }, MXID := mxid,
          Timestamp := time.Unix 0 timestamp, Metadata := metadata1 }
  | _ => .error "sql: Scan error"

/-- A stored row as the `INSERT` writes it: each parameter under the column at the same
position of `upsertColumns`. -/
def storeColumns (values : List SQLValue) : List (String × SQLValue) :=
  upsertColumns.zip values

/-- The values the `SELECT` reads from a stored row, in the order of `selectColumns`;
`none` when a column is missing. -/
def readColumns (stored : List (String × SQLValue)) : Option (List SQLValue) :=
  selectColumns.mapM (fun column => stored.lookup column)

/-- The ten column values of a `ReactionRow`, in the order of `selectColumns`. -/
def ReactionRow.values (row : ReactionRow) : List SQLValue :=
  [SQLValue.text row.bridge_id, SQLValue.text row.message_id,
    SQLValue.text row.message_part_id, SQLValue.text row.sender_id,
    SQLValue.text row.emoji_id, SQLValue.text row.room_id, SQLValue.text row.room_receiver,
    SQLValue.text row.mxid, SQLValue.integer row.timestamp, SQLValue.json row.metadata]

/-- Go `ReactionQuery`; the query helper is the table it runs its statements on. -/
structure ReactionQuery where
  BridgeID : String
  deriving DecidableEq, Repr

/-- Go `(*ReactionQuery).Upsert`: the reaction as the method left it and the table after
the statement.  The result is `none` when `ensureBridgeIDMatches` faults. -/
def ReactionQuery.Upsert (rq : ReactionQuery) (table : ReactionTable) (reaction : Reaction) :
    Option (Reaction × ReactionTable) :=
  match ensureBridgeIDMatches reaction.BridgeID rq.BridgeID with
  | none => none
  | some bridgeID =>
    let r := ({ reaction with BridgeID := bridgeID } : Reaction).sqlVariables
    some (r.1, upsertReactionQuery table r.2)

/-- Go `(*ReactionQuery).Delete`: the table after the statement.  The result is `none`
when `ensureBridgeIDMatches` faults. -/
def ReactionQuery.Delete (rq : ReactionQuery) (table : ReactionTable) (reaction : Reaction) :
    Option ReactionTable :=
  match ensureBridgeIDMatches reaction.BridgeID rq.BridgeID with
  | none => none
  | some bridgeID =>
    some (deleteReactionQuery table bridgeID reaction.MessageID reaction.MessagePartID
      reaction.SenderID reaction.EmojiID)

/-- Go `(*ReactionQuery).GetByID`: `QueryOne` scans the first selected row, and returns
`(nil, nil)` when no row is selected. -/
def ReactionQuery.GetByID (rq : ReactionQuery) (table : ReactionTable)
    (messageID messagePartID senderID emojiID : String) : Except Error (Option Reaction) :=
  match getReactionByIDQuery table rq.BridgeID messageID messagePartID senderID emojiID with
  | [] => .ok none
  | row :: _ =>
    match Reaction.Scan row with
    | .error e => .error e
    | .ok r => .ok (some r)

end database

/-- What `DO UPDATE SET mxid, timestamp, metadata` does to a conflicting row. -/
def database.ReactionRow.updatedBy (row excluded : database.ReactionRow) :
    database.ReactionRow :=
  { row with
    mxid := excluded.mxid, timestamp := excluded.timestamp, metadata := excluded.metadata }

/-! ## Sample collaborators and objects -/

/-- An intent whose every call succeeds; uploads return a URI naming the file. -/
def sampleIntentOk : MatrixAPI where
  SetDisplayName := fun _ _ => none
  SetAvatarURL := fun _ _ => none
  SetExtraProfileMeta := fun _ _ => none
  UploadMedia := fun _ _ _ fileName _ => .ok ("mxc://example/" ++ fileName)

/-- An intent whose every call fails. -/
def sampleIntentFail : MatrixAPI where
  SetDisplayName := fun _ _ => some "M_UNKNOWN"
  SetAvatarURL := fun _ _ => some "M_UNKNOWN"
  SetExtraProfileMeta := fun _ _ => some "M_UNKNOWN"
  UploadMedia := fun _ _ _ _ _ => .error "M_UNKNOWN"

/-- A stand-in for the library functions: the digest is the byte sum in the last of 32
positions. -/
def sampleLib : Stdlib where
  Sum256 := fun data => List.replicate 31 0 ++ [data.sum % 256]
  DetectContentType := fun _ => "image/png"
  ExtensionFromMimetype := fun _ => ".png"

/-- A freshly inserted ghost row: only the identity is set. -/
def sampleRow : database.Ghost where
  BridgeID := "br"
  ID := "u1"
  Name := ""
  AvatarID := ""
  AvatarHash := zeroHash
  AvatarMXC := ""
  NameSet := false
  AvatarSet := false
  Metadata := { IsBot := false, Identifiers := none, ContactInfoSet := false, Extra := none }

/-- A fresh ghost whose intent calls succeed. -/
def sampleGhost : Ghost := { Ghost := sampleRow, Intent := sampleIntentOk }

/-- A ghost whose name, avatar and contact info are all confirmed, and whose intent calls
now fail. -/
def sampleGhostConfirmed : Ghost where
  Ghost :=
    { sampleRow with
      Name := "Alice"
      NameSet := true
      AvatarID := "old"
      AvatarMXC := "mxc://example/old"
      AvatarSet := true
      Metadata := { IsBot := false, Identifiers := some ["a"], ContactInfoSet := true,
                    Extra := none } }
  Intent := sampleIntentFail

/-- An avatar with identifier `a1` whose fetch yields the bytes 1, 2, 3. -/
def sampleAvatarA1 : Avatar where
  ID := "a1"
  Get := fun _ => .ok [1, 2, 3]
  Remove := false
  MXC := ""
  Hash := zeroHash

/-- An avatar with another identifier, `a2`, and the same content as `sampleAvatarA1`. -/
def sampleAvatarA2 : Avatar where
  ID := "a2"
  Get := fun _ => .ok [1, 2, 3]
  Remove := false
  MXC := ""
  Hash := zeroHash

/-- An avatar with identifier `a1` whose fetch yields no bytes; under `sampleLib` its
digest is the zero hash. -/
def sampleAvatarEmpty : Avatar where
  ID := "a1"
  Get := fun _ => .ok []
  Remove := false
  MXC := ""
  Hash := zeroHash

/-- An avatar with identifier `new` whose fetch fails. -/
def sampleAvatarUnreachable : Avatar where
  ID := "new"
  Get := fun _ => .error "timeout"
  Remove := false
  MXC := ""
  Hash := zeroHash

/-- A storage layer whose every query succeeds and finds no rows. -/
def sampleDB : Database where
  UserPortalGetAllForLogin := fun _ _ => ([], none)
  UserLoginDelete := fun _ _ => none
  GhostUpdate := fun _ _ => none
  GhostGetByID := fun _ _ => (none, none)
  GhostInsert := fun _ _ => none

/-- A remote client that reports the display name Alice for every ghost. -/
def sampleClient : NetworkAPI where
  GetUserInfo := fun _ _ =>
    .ok (some { Identifiers := none, Name := some "Alice", Avatar := none, IsBot := none,
                ExtraUpdates := none })
  Disconnect := fun _ => true

/-- A network connector without the aggressive-update capability. -/
def sampleNetwork : NetworkConnector where
  GetName := { BeeperBridgeType := "samplenet", NetworkID := "sample" }
  GetCapabilities := { AggressiveUpdateInfo := false }
  LoadUserLogin := fun _ ul =>
    if ul.UserLogin.ID = "broken" then (none, some "cannot connect")
    else (some sampleClient, none)

/-- A login `login1` of `@alice:example.org` with a client attached. -/
def sampleLogin : UserLogin where
  UserLogin :=
    { BridgeID := "br", UserMXID := "@alice:example.org", ID := "login1", SpaceRoom := "",
      Metadata := { RemoteName := "alice" } }
  Client := some sampleClient

/-- A second login, `login2`, of the same user. -/
def sampleLoginOther : UserLogin where
  UserLogin :=
    { BridgeID := "br", UserMXID := "@alice:example.org", ID := "login2", SpaceRoom := "",
      Metadata := { RemoteName := "alice-work" } }
  Client := some sampleClient

/-- The user owning both sample logins, with both in its login cache. -/
def sampleUser : User where
  MXID := "@alice:example.org"
  logins := (GoMap.empty.set "login2" sampleLoginOther).set "login1" sampleLogin

/-- A bridge with empty caches. -/
def sampleBridge : Bridge where
  ID := "br"
  DB := sampleDB
  Matrix := { GhostIntent := fun _ => sampleIntentOk }
  Network := sampleNetwork
  userLoginsByID := GoMap.empty
  ghostsByID := GoMap.empty

/-- A bridge with both sample logins in its login cache. -/
def sampleBridgeLoggedIn : Bridge :=
  { sampleBridge with
    userLoginsByID := (GoMap.empty.set "login2" sampleLoginOther).set "login1" sampleLogin }

/-- The login `login1` after `Disconnect`: its client reference is cleared. -/
def sampleLoginDisconnected : UserLogin := (sampleLogin.Disconnect [] none).1

/-- A ghost whose extension map holds the string `blue` under the key `colour`. -/
def sampleGhostExtra : Ghost :=
  { sampleGhost with
    Ghost.Metadata.Extra := some [("colour", database.AnyValue.str "blue")] }

/-- A storage layer that holds the row `sampleRow` for the ghost `u1` and no other ghost
row, and whose inserts fail for the id `full`. -/
def sampleDBWithGhost : Database :=
  { sampleDB with
    GhostGetByID := fun _ id => if id = "u1" then (some sampleRow, none) else (none, none)
    GhostInsert := fun _ row => if row.ID = "full" then some "disk full" else none }

/-- A bridge with empty caches over `sampleDBWithGhost`. -/
def sampleBridgeWithGhost : Bridge := { sampleBridge with DB := sampleDBWithGhost }

/-- A storage layer whose every query fails. -/
def sampleDBDown : Database :=
  { sampleDB with GhostGetByID := fun _ _ => (none, some "connection refused") }

/-- A bridge with empty caches over `sampleDBDown`. -/
def sampleBridgeDown : Bridge := { sampleBridge with DB := sampleDBDown }

/-- A stored login row of `@alice:example.org` with the given id. -/
def sampleLoginRow (id : String) : database.UserLogin :=
  { BridgeID := "br", UserMXID := "@alice:example.org", ID := id, SpaceRoom := "",
    Metadata := { RemoteName := "alice" } }

/-- A user lookup that finds no user. -/
def sampleGetUser : GetUserByMXID := fun br _ _ _ => ((none, none), br, [])

/-- Reaction metadata whose extension map itself holds a key `emoji`. -/
def sampleMetadataClash : database.ReactionMetadata where
  StandardReactionMetadata := { Emoji := "+1" }
  Extra := some [("emoji", database.AnyValue.str "heart")]

/-- Reaction metadata with an emoji, one extension key and no key `emoji` in the
extension map. -/
def sampleMetadata : database.ReactionMetadata where
  StandardReactionMetadata := { Emoji := "+1" }
  Extra := some [("x", database.AnyValue.int 1)]

/-- A reaction of `u1` with emoji `e1` on part `p1` of message `m1`, in the room `room`
of the given receiver, bridged as the given event at the given second. -/
def sampleReaction (receiver mxid : String) (sec : Int) : database.Reaction where
  BridgeID := "br"
  Room := { ID := "room", Receiver := receiver }
  MessageID := "m1"
  MessagePartID := "p1"
  SenderID := "u1"
  EmojiID := "e1"
  MXID := mxid
  Timestamp := { sec := sec, nsec := 0, loc := "UTC" }
  Metadata := sampleMetadata

/-- The reaction store of the bridge `br`. -/
def sampleReactionQuery : database.ReactionQuery := { BridgeID := "br" }

/-- The stored row of `sampleReaction receiver mxid sec`. -/
def sampleReactionRow (receiver mxid : String) (sec : Int) : database.ReactionRow :=
  (sampleReaction receiver mxid sec).sqlVariables.2

/-- A reaction whose metadata extension map itself holds a key `emoji`. -/
def sampleReactionClash : database.Reaction :=
  { sampleReaction "A" "$a" 1 with Metadata := sampleMetadataClash }

/-! ## Auxiliary facts -/

theorem GoMap.get_delete_self {V : Type} (m : GoMap V) (k : String) :
    (m.delete k).get k = none := by
  simp only [GoMap.get, GoMap.delete, Option.map_eq_none', List.find?_eq_none,
    List.mem_filter]
  intro x hx
  simpa using hx.2

theorem GoMap.get_delete_ne {V : Type} (m : GoMap V) (k k1 : String) (h : k1 ≠ k) :
    (m.delete k).get k1 = m.get k1 := by
  have hp : (fun a : String × V => decide ((!(a.1 == k)) = true ∧ (a.1 == k1) = true)) =
      fun a => a.1 == k1 := by
    funext a
    by_cases h1 : a.1 = k1
    · have h2 : ¬ a.1 = k := fun h3 => h (h1.symm.trans h3)
      simp [h1, h2, h]
    · simp [h1]
  simp only [GoMap.get, GoMap.delete, List.find?_filter, hp]

theorem slices.SortStrings_perm (a b : List String) (h : a.Perm b) :
    slices.SortStrings a = slices.SortStrings b := by
  haveI : IsAntisymm String strLE :=
    ⟨fun x y h1 h2 => String.ext (le_antisymm (α := List Char) h1 h2)⟩
  haveI : IsTotal String strLE := ⟨fun x y => le_total x.toList y.toList⟩
  haveI : IsTrans String strLE := ⟨fun x y z h1 h2 => le_trans (α := List Char) h1 h2⟩
  unfold slices.SortStrings
  exact List.eq_of_perm_of_sorted
    ((List.perm_insertionSort strLE a).trans (h.trans (List.perm_insertionSort strLE b).symm))
    (List.sorted_insertionSort strLE a) (List.sorted_insertionSort strLE b)

theorem Trace.ne_append_singleton (t : Trace) (c : Call) : t ≠ t ++ [c] := by
  intro h
  have := congrArg List.length h
  simp at this

/-! ## `UpdateName` -/

/-- C1: if the display-name write of `UpdateName(name)` succeeds, an immediately following
`UpdateName(name)` returns false, makes no call and leaves the ghost as it was. -/
theorem UpdateName_twice_noop (ghost : Ghost) (t : Trace) (name : String)
    (hok : ghost.Intent.SetDisplayName t name = none) :
    (ghost.UpdateName t name).2.1.UpdateName (ghost.UpdateName t name).2.2 name =
      (false, (ghost.UpdateName t name).2.1, (ghost.UpdateName t name).2.2) := by
  by_cases h : ghost.Ghost.Name = name ∧ ghost.Ghost.NameSet = true
  · simp [Ghost.UpdateName, h]
  · simp [Ghost.UpdateName, h, hok]

theorem UpdateName_twice_noop_witness :
    sampleGhost.Intent.SetDisplayName [] "Alice" = none ∧
    (sampleGhost.UpdateName [] "Alice").2.1.UpdateName
        (sampleGhost.UpdateName [] "Alice").2.2 "Alice" =
      (false, (sampleGhost.UpdateName [] "Alice").2.1,
        (sampleGhost.UpdateName [] "Alice").2.2) :=
  ⟨rfl, UpdateName_twice_noop sampleGhost [] "Alice" rfl⟩

/-- C5: when `UpdateName` does not no-op it returns true whatever the write does, makes
exactly the one call `SetDisplayName(name)`, stores the name, changes nothing else, and
leaves `NameSet` true exactly when that write succeeded. -/
theorem UpdateName_changed (ghost : Ghost) (t : Trace) (name : String)
    (h : ¬ (ghost.Ghost.Name = name ∧ ghost.Ghost.NameSet = true)) :
    (ghost.UpdateName t name).1 = true ∧
    (ghost.UpdateName t name).2.2 = t ++ [Call.SetDisplayName name] ∧
    (ghost.UpdateName t name).2.1.Ghost.Name = name ∧
    ((ghost.UpdateName t name).2.1.Ghost.NameSet = true ↔
      ghost.Intent.SetDisplayName t name = none) ∧
    (ghost.UpdateName t name).2.1 =
      { ghost with
        Ghost.Name := name
        Ghost.NameSet := (ghost.Intent.SetDisplayName t name).isNone } := by
  cases hw : ghost.Intent.SetDisplayName t name <;> simp [Ghost.UpdateName, h, hw]

theorem UpdateName_changed_witness :
    ¬ (sampleGhost.Ghost.Name = "Alice" ∧ sampleGhost.Ghost.NameSet = true) ∧
    (sampleGhost.UpdateName [] "Alice").2.2 = [] ++ [Call.SetDisplayName "Alice"] :=
  ⟨by decide, (UpdateName_changed sampleGhost [] "Alice" (by decide)).2.1⟩

/-! ## `UpdateContactInfo` -/

theorem UpdateContactInfo_noop (br : Bridge) (ghost : Ghost) (t : Trace)
    (identifiers : Option (List String)) (isBot : Option Bool)
    (h : ghost.Ghost.Metadata.ContactInfoSet = true ∧
      (identifiers.map slices.SortStrings = none ∨
        slices.Equal (identifiers.map slices.SortStrings) ghost.Ghost.Metadata.Identifiers
          = true) ∧
      (isBot = none ∨ isBot = some ghost.Ghost.Metadata.IsBot)) :
    ghost.UpdateContactInfo br t identifiers isBot = (false, ghost, t) := by
  unfold Ghost.UpdateContactInfo
  simp only [if_pos h]

theorem UpdateContactInfo_stores (br : Bridge) (ghost : Ghost) (t : Trace)
    (a : List String) (isBot : Option Bool) :
    slices.Equal (some (slices.SortStrings a))
        (ghost.UpdateContactInfo br t (some a) isBot).2.1.Ghost.Metadata.Identifiers = true ∧
    (isBot = none ∨
      isBot = some (ghost.UpdateContactInfo br t (some a) isBot).2.1.Ghost.Metadata.IsBot) := by
  unfold Ghost.UpdateContactInfo
  simp only [Option.map_some']
  split
  · next h => exact ⟨by simpa using h.2.1, h.2.2⟩
  · cases isBot <;> (simp only []; split <;> simp [slices.Equal])

theorem UpdateContactInfo_confirmed_noop (br : Bridge) (ghost : Ghost) (t : Trace)
    (a b : List String) (isBot : Option Bool) (hperm : a.Perm b)
    (hset : (ghost.UpdateContactInfo br t (some a) isBot).2.1.Ghost.Metadata.ContactInfoSet
      = true) :
    (ghost.UpdateContactInfo br t (some a) isBot).2.1.UpdateContactInfo br
        (ghost.UpdateContactInfo br t (some a) isBot).2.2 (some b) isBot =
      (false, (ghost.UpdateContactInfo br t (some a) isBot).2.1,
        (ghost.UpdateContactInfo br t (some a) isBot).2.2) := by
  have hs := slices.SortStrings_perm a b hperm
  have hst := UpdateContactInfo_stores br ghost t a isBot
  apply UpdateContactInfo_noop
  refine ⟨hset, Or.inr ?_, hst.2⟩
  simpa [← hs] using hst.1

/-- C2: for identifier lists `a` and `b` that are permutations of each other, if
`UpdateContactInfo(a, isBot)` made its `SetExtraProfileMeta` write and the write
succeeded, a following `UpdateContactInfo(b, isBot)` returns false, makes no call and
leaves the ghost (identifiers, is-bot flag, `ContactInfoSet`) as it was. -/
theorem UpdateContactInfo_perm_noop (br : Bridge) (ghost : Ghost) (t : Trace)
    (a b : List String) (isBot : Option Bool) (hperm : a.Perm b)
    (hok : ∃ m, (ghost.UpdateContactInfo br t (some a) isBot).2.2
        = t ++ [Call.SetExtraProfileMeta m] ∧
      ghost.Intent.SetExtraProfileMeta t m = none) :
    (ghost.UpdateContactInfo br t (some a) isBot).2.1.UpdateContactInfo br
        (ghost.UpdateContactInfo br t (some a) isBot).2.2 (some b) isBot =
      (false, (ghost.UpdateContactInfo br t (some a) isBot).2.1,
        (ghost.UpdateContactInfo br t (some a) isBot).2.2) := by
  apply UpdateContactInfo_confirmed_noop br ghost t a b isBot hperm
  obtain ⟨m, htr, hm⟩ := hok
  revert htr
  unfold Ghost.UpdateContactInfo
  simp only [Option.map_some']
  split
  · intro htr
    exact absurd htr (Trace.ne_append_singleton t _)
  · cases isBot <;>
    · simp only []
      split
      · next e he =>
        intro htr
        have hm2 := List.append_cancel_left htr
        simp only [List.cons.injEq, Call.SetExtraProfileMeta.injEq, and_true] at hm2
        rw [hm2] at he
        rw [he] at hm
        cases hm
      · intro _
        rfl

theorem UpdateContactInfo_perm_noop_witness :
    (["b", "a"] : List String).Perm ["a", "b"] ∧
    (sampleGhost.UpdateContactInfo sampleBridge [] (some ["b", "a"]) (some true)).2.1.UpdateContactInfo
        sampleBridge
        (sampleGhost.UpdateContactInfo sampleBridge [] (some ["b", "a"]) (some true)).2.2
        (some ["a", "b"]) (some true) =
      (false, (sampleGhost.UpdateContactInfo sampleBridge [] (some ["b", "a"]) (some true)).2.1,
        (sampleGhost.UpdateContactInfo sampleBridge [] (some ["b", "a"]) (some true)).2.2) :=
  ⟨List.Perm.swap "a" "b" [],
   UpdateContactInfo_perm_noop sampleBridge sampleGhost [] ["b", "a"] ["a", "b"] (some true)
    (List.Perm.swap "a" "b" [])
    ⟨{ RemoteID := "u1", Identifiers := some ["a", "b"], Service := "samplenet",
       Network := "sample", IsBridgeBot := false, IsNetworkBot := true },
     by decide, rfl⟩⟩

/-- C6 (the code departs from the claim): on a ghost whose `ContactInfoSet` is already
true, a changed identifier list whose `SetExtraProfileMeta` write fails still leaves
`ContactInfoSet` true, and the following call with the same input returns false and
makes no call. -/
theorem UpdateContactInfo_failed_write_stays_confirmed :
    sampleGhostConfirmed.Ghost.Metadata.ContactInfoSet = true ∧
    (sampleGhostConfirmed.UpdateContactInfo sampleBridge [] (some ["b"]) none).1 = true ∧
    (sampleGhostConfirmed.UpdateContactInfo sampleBridge [] (some ["b"]) none).2.2 =
      [Call.SetExtraProfileMeta
        { RemoteID := "u1", Identifiers := some ["b"], Service := "samplenet",
          Network := "sample", IsBridgeBot := false, IsNetworkBot := false }] ∧
    sampleGhostConfirmed.Intent.SetExtraProfileMeta []
        { RemoteID := "u1", Identifiers := some ["b"], Service := "samplenet",
          Network := "sample", IsBridgeBot := false, IsNetworkBot := false } ≠ none ∧
    (sampleGhostConfirmed.UpdateContactInfo sampleBridge [] (some ["b"])
      none).2.1.Ghost.Metadata.ContactInfoSet = true ∧
    ((sampleGhostConfirmed.UpdateContactInfo sampleBridge [] (some ["b"]) none).2.1.UpdateContactInfo
        sampleBridge
        (sampleGhostConfirmed.UpdateContactInfo sampleBridge [] (some ["b"]) none).2.2
        (some ["b"]) none).1 = false ∧
    ((sampleGhostConfirmed.UpdateContactInfo sampleBridge [] (some ["b"]) none).2.1.UpdateContactInfo
        sampleBridge
        (sampleGhostConfirmed.UpdateContactInfo sampleBridge [] (some ["b"]) none).2.2
        (some ["b"]) none).2.2 =
      (sampleGhostConfirmed.UpdateContactInfo sampleBridge [] (some ["b"]) none).2.2 := by
  decide

/-! ## `UpdateAvatar` -/

theorem Avatar.Reupload_trace (lib : Stdlib) (a : Avatar) (intent : MatrixAPI)
    (currentHash : Hash32) (t : Trace) :
    ∃ new, (a.Reupload lib intent currentHash t).2 = t ++ new ∧
      ∀ c ∈ new, c = Call.AvatarGet a.ID ∨ ∃ r d f m, c = Call.UploadMedia r d f m := by
  unfold Avatar.Reupload
  split
  · exact ⟨[], by simp⟩
  · simp only []
    split
    · exact ⟨[Call.AvatarGet a.ID], by simp⟩
    · split
      · exact ⟨[Call.AvatarGet a.ID], by simp⟩
      · split <;>
        · refine ⟨_, List.append_assoc _ _ _, ?_⟩
          intro c hc
          simp only [List.mem_append, List.mem_singleton] at hc
          rcases hc with hc | hc
          · exact Or.inl hc
          · exact Or.inr ⟨_, _, _, _, hc⟩

/-- C3: for a non-removal avatar that is not a confirmed match and whose `Reupload`
succeeds with a hash equal to the stored `AvatarHash`, `UpdateAvatar` returns true, sets
`AvatarID` to the avatar's ID, makes no `SetAvatarURL` call, and leaves `AvatarMXC`,
`AvatarHash`, `AvatarSet` (and every other field) as they were. -/
theorem UpdateAvatar_same_hash (lib : Stdlib) (ghost : Ghost) (t : Trace) (avatar : Avatar)
    (mxc : String) (t1 : Trace)
    (hrm : avatar.Remove = false)
    (hne : ¬ (ghost.Ghost.AvatarID = avatar.ID ∧ ghost.Ghost.AvatarSet = true))
    (hre : avatar.Reupload lib ghost.Intent ghost.Ghost.AvatarHash t =
      ((mxc, ghost.Ghost.AvatarHash, none), t1)) :
    ghost.UpdateAvatar lib t avatar = (true, { ghost with Ghost.AvatarID := avatar.ID }, t1) ∧
    (ghost.UpdateAvatar lib t avatar).2.1.Ghost.AvatarID = avatar.ID ∧
    (ghost.UpdateAvatar lib t avatar).2.1.Ghost.AvatarMXC = ghost.Ghost.AvatarMXC ∧
    (ghost.UpdateAvatar lib t avatar).2.1.Ghost.AvatarHash = ghost.Ghost.AvatarHash ∧
    (ghost.UpdateAvatar lib t avatar).2.1.Ghost.AvatarSet = ghost.Ghost.AvatarSet ∧
    ∃ new, (ghost.UpdateAvatar lib t avatar).2.2 = t ++ new ∧
      ∀ u, Call.SetAvatarURL u ∉ new := by
  have heq : ghost.UpdateAvatar lib t avatar =
      (true, { ghost with Ghost.AvatarID := avatar.ID }, t1) := by
    unfold Ghost.UpdateAvatar
    simp [hne, hrm, hre]
  refine ⟨heq, ?_⟩
  rw [heq]
  refine ⟨rfl, rfl, rfl, rfl, ?_⟩
  obtain ⟨new, hnew, hcalls⟩ :=
    Avatar.Reupload_trace lib avatar ghost.Intent ghost.Ghost.AvatarHash t
  rw [hre] at hnew
  refine ⟨new, hnew, ?_⟩
  intro u hu
  rcases hcalls _ hu with h | ⟨_, _, _, _, h⟩ <;> cases h

theorem UpdateAvatar_same_hash_witness :
    sampleAvatarEmpty.Remove = false ∧
    ¬ (sampleGhost.Ghost.AvatarID = sampleAvatarEmpty.ID ∧ sampleGhost.Ghost.AvatarSet = true) ∧
    sampleAvatarEmpty.Reupload sampleLib sampleGhost.Intent sampleGhost.Ghost.AvatarHash [] =
      (("", sampleGhost.Ghost.AvatarHash, none), [Call.AvatarGet "a1"]) ∧
    (sampleGhost.UpdateAvatar sampleLib [] sampleAvatarEmpty).1 = true ∧
    (sampleGhost.UpdateAvatar sampleLib [] sampleAvatarEmpty).2.1.Ghost.AvatarID = "a1" ∧
    (sampleGhost.UpdateAvatar sampleLib [] sampleAvatarEmpty).2.1.Ghost.AvatarSet = false ∧
    (sampleGhost.UpdateAvatar sampleLib [] sampleAvatarEmpty).2.2 = [Call.AvatarGet "a1"] :=
  have h := UpdateAvatar_same_hash sampleLib sampleGhost [] sampleAvatarEmpty ""
    [Call.AvatarGet "a1"] rfl (by decide) (by decide)
  ⟨rfl, by decide, by decide, by rw [h.1], h.2.1, h.2.2.2.2.1, by rw [h.1]⟩

/-- C4 (the code departs from the claim): `UpdateAvatar` never stores the new content
hash.  A fresh ghost takes avatar `a1` (upload and `SetAvatarURL` succeed); the stored
`AvatarHash` is still the old one and not the hash of the content, so a following avatar
`a2` with the same content is uploaded and written again. -/
theorem UpdateAvatar_hash_not_stored :
    sampleLib.Sum256 [1, 2, 3] ≠ sampleGhost.Ghost.AvatarHash ∧
    (sampleGhost.UpdateAvatar sampleLib [] sampleAvatarA1).2.2 =
      [Call.AvatarGet "a1", Call.UploadMedia "" [1, 2, 3] "avatar.png" "image/png",
        Call.SetAvatarURL "mxc://example/avatar.png"] ∧
    (sampleGhost.UpdateAvatar sampleLib [] sampleAvatarA1).2.1.Ghost.AvatarSet = true ∧
    (sampleGhost.UpdateAvatar sampleLib [] sampleAvatarA1).2.1.Ghost.AvatarHash =
      sampleGhost.Ghost.AvatarHash ∧
    (sampleGhost.UpdateAvatar sampleLib [] sampleAvatarA1).2.1.Ghost.AvatarHash ≠
      sampleLib.Sum256 [1, 2, 3] ∧
    ((sampleGhost.UpdateAvatar sampleLib [] sampleAvatarA1).2.1.UpdateAvatar sampleLib
        (sampleGhost.UpdateAvatar sampleLib [] sampleAvatarA1).2.2 sampleAvatarA2).2.2 =
      (sampleGhost.UpdateAvatar sampleLib [] sampleAvatarA1).2.2 ++
        [Call.AvatarGet "a2", Call.UploadMedia "" [1, 2, 3] "avatar.png" "image/png",
          Call.SetAvatarURL "mxc://example/avatar.png"] := by
  decide

/-- C7 (the code departs from the claim): on a ghost whose `AvatarSet` is true for the
avatar `old`, an avatar `new` whose fetch fails makes `UpdateAvatar` return true with
`AvatarID` already set to `new` and `AvatarSet` still true, so the following call with
the same avatar returns false and does not fetch again. -/
theorem UpdateAvatar_failed_reupload_stays_confirmed :
    sampleGhostConfirmed.Ghost.AvatarID = "old" ∧
    sampleGhostConfirmed.Ghost.AvatarSet = true ∧
    (sampleGhostConfirmed.UpdateAvatar sampleLib [] sampleAvatarUnreachable).1 = true ∧
    (sampleGhostConfirmed.UpdateAvatar sampleLib [] sampleAvatarUnreachable).2.2 =
      [Call.AvatarGet "new"] ∧
    (sampleGhostConfirmed.UpdateAvatar sampleLib [] sampleAvatarUnreachable).2.1.Ghost.AvatarID
      = "new" ∧
    (sampleGhostConfirmed.UpdateAvatar sampleLib [] sampleAvatarUnreachable).2.1.Ghost.AvatarSet
      = true ∧
    ((sampleGhostConfirmed.UpdateAvatar sampleLib [] sampleAvatarUnreachable).2.1.UpdateAvatar
        sampleLib (sampleGhostConfirmed.UpdateAvatar sampleLib [] sampleAvatarUnreachable).2.2
        sampleAvatarUnreachable).1 = false ∧
    ((sampleGhostConfirmed.UpdateAvatar sampleLib [] sampleAvatarUnreachable).2.1.UpdateAvatar
        sampleLib (sampleGhostConfirmed.UpdateAvatar sampleLib [] sampleAvatarUnreachable).2.2
        sampleAvatarUnreachable).2.2 = [Call.AvatarGet "new"] := by
  decide

/-! ## Calls made by the sub-updates -/

theorem UpdateName_trace (ghost : Ghost) (t : Trace) (name : String) :
    ∃ new, (ghost.UpdateName t name).2.2 = t ++ new ∧
      ∀ c ∈ new, c.isGhostUpdate = false := by
  unfold Ghost.UpdateName
  split
  · exact ⟨[], by simp⟩
  · simp only []
    split <;> exact ⟨[Call.SetDisplayName name], rfl, by simp [Call.isGhostUpdate]⟩

theorem updateAvatarWrite_trace (ghost : Ghost) (t : Trace) :
    ∃ new, (Ghost.updateAvatarWrite ghost t).2.2 = t ++ new ∧
      ∀ c ∈ new, c.isGhostUpdate = false := by
  unfold Ghost.updateAvatarWrite
  simp only []
  split <;> exact ⟨[Call.SetAvatarURL _], rfl, by simp [Call.isGhostUpdate]⟩

theorem Avatar.Reupload_trace_noUpdate (lib : Stdlib) (a : Avatar) (intent : MatrixAPI)
    (currentHash : Hash32) (t : Trace) :
    ∃ new, (a.Reupload lib intent currentHash t).2 = t ++ new ∧
      ∀ c ∈ new, c.isGhostUpdate = false := by
  obtain ⟨new, h1, h2⟩ := Avatar.Reupload_trace lib a intent currentHash t
  refine ⟨new, h1, ?_⟩
  intro c hc
  rcases h2 c hc with h | ⟨_, _, _, _, h⟩ <;> (subst h; rfl)

theorem UpdateAvatar_trace (lib : Stdlib) (ghost : Ghost) (t : Trace) (avatar : Avatar) :
    ∃ new, (ghost.UpdateAvatar lib t avatar).2.2 = t ++ new ∧
      ∀ c ∈ new, c.isGhostUpdate = false := by
  unfold Ghost.UpdateAvatar
  split
  · exact ⟨[], by simp⟩
  · simp only []
    split
    · obtain ⟨n1, h1, h2⟩ := Avatar.Reupload_trace_noUpdate lib avatar ghost.Intent
        ghost.Ghost.AvatarHash t
      split
      · next heq =>
        rw [heq] at h1
        exact ⟨n1, h1, h2⟩
      · next heq =>
        rw [heq] at h1
        simp only at h1
        split
        · exact ⟨n1, h1, h2⟩
        · obtain ⟨n2, h3, h4⟩ := updateAvatarWrite_trace
            { ghost with Ghost.AvatarID := avatar.ID, Ghost.AvatarMXC := _ } (t ++ n1)
          refine ⟨n1 ++ n2, ?_, ?_⟩
          · rw [h1, ← List.append_assoc]
            exact h3
          · intro c hc
            rcases List.mem_append.mp hc with hc | hc
            · exact h2 c hc
            · exact h4 c hc
    · exact updateAvatarWrite_trace _ t

theorem UpdateContactInfo_trace (br : Bridge) (ghost : Ghost) (t : Trace)
    (identifiers : Option (List String)) (isBot : Option Bool) :
    ∃ new, (ghost.UpdateContactInfo br t identifiers isBot).2.2 = t ++ new ∧
      ∀ c ∈ new, c.isGhostUpdate = false := by
  unfold Ghost.UpdateContactInfo
  simp only []
  split
  · exact ⟨[], by simp⟩
  · split <;> exact ⟨[Call.SetExtraProfileMeta _], rfl, by simp [Call.isGhostUpdate]⟩

/-! ## `UpdateInfo` -/

theorem UpdateInfo_stages (lib : Stdlib) (br : Bridge) (ghost : Ghost) (t : Trace)
    (info : UserInfo) :
    ∃ (r1 r2 r3 r4 : Bool × Ghost × Trace) (hookCalls : List Call),
      r1 = (match info.Name with
        | some name => ghost.UpdateName t name
        | none => (false, ghost, t)) ∧
      r2 = (match info.Avatar with
        | some avatar => r1.2.1.UpdateAvatar lib r1.2.2 avatar
        | none => (false, r1.2.1, r1.2.2)) ∧
      r3 = (if info.Identifiers ≠ none ∨ info.IsBot ≠ none then
          r2.2.1.UpdateContactInfo br r2.2.2 info.Identifiers info.IsBot
        else (false, r2.2.1, r2.2.2)) ∧
      (r4, hookCalls) = (match info.ExtraUpdates with
        | some extraUpdates =>
          (((extraUpdates r3.2.1 r3.2.2).1, (extraUpdates r3.2.1 r3.2.2).2.1,
            r3.2.2 ++ (extraUpdates r3.2.1 r3.2.2).2.2), (extraUpdates r3.2.1 r3.2.2).2.2)
        | none => ((false, r3.2.1, r3.2.2), [])) ∧
      ghost.UpdateInfo lib br t info =
        (r4.2.1, r4.2.2 ++
          (if (r1.1 || r2.1 || r3.1 || r4.1) = true then [Call.GhostUpdate r4.2.1.Ghost]
            else [])) ∧
      ∃ new, r4.2.2 = t ++ new ∧
        new.countP Call.isGhostUpdate = hookCalls.countP Call.isGhostUpdate := by
  refine ⟨_, _, _, _, _, rfl, rfl, rfl, rfl, ?_, ?_⟩
  · unfold Ghost.UpdateInfo
    cases info.Name <;> cases info.Avatar <;> cases info.ExtraUpdates <;>
      by_cases hc : (info.Identifiers ≠ none ∨ info.IsBot ≠ none) <;>
      simp only [hc, if_true, if_false, Bool.or_false, Bool.false_or] <;>
      split <;> simp_all [or_comm, or_left_comm, or_assoc]
  · have key : ∀ (r1 r2 r3 r4 : Bool × Ghost × Trace) (hookCalls : List Call),
        r1 = (match info.Name with
          | some name => ghost.UpdateName t name
          | none => (false, ghost, t)) →
        r2 = (match info.Avatar with
          | some avatar => r1.2.1.UpdateAvatar lib r1.2.2 avatar
          | none => (false, r1.2.1, r1.2.2)) →
        r3 = (if info.Identifiers ≠ none ∨ info.IsBot ≠ none then
            r2.2.1.UpdateContactInfo br r2.2.2 info.Identifiers info.IsBot
          else (false, r2.2.1, r2.2.2)) →
        (r4, hookCalls) = (match info.ExtraUpdates with
          | some extraUpdates =>
            (((extraUpdates r3.2.1 r3.2.2).1, (extraUpdates r3.2.1 r3.2.2).2.1,
              r3.2.2 ++ (extraUpdates r3.2.1 r3.2.2).2.2), (extraUpdates r3.2.1 r3.2.2).2.2)
          | none => ((false, r3.2.1, r3.2.2), [])) →
        ∃ new, r4.2.2 = t ++ new ∧
          new.countP Call.isGhostUpdate = hookCalls.countP Call.isGhostUpdate := by
      intro r1 r2 r3 r4 hookCalls e1 e2 e3 e4
      have h1 : ∃ n1, r1.2.2 = t ++ n1 ∧ ∀ c ∈ n1, c.isGhostUpdate = false := by
        subst e1
        cases info.Name
        · exact ⟨[], by simp⟩
        · exact UpdateName_trace _ _ _
      have h2 : ∃ n2, r2.2.2 = r1.2.2 ++ n2 ∧ ∀ c ∈ n2, c.isGhostUpdate = false := by
        subst e2
        cases info.Avatar
        · exact ⟨[], by simp⟩
        · exact UpdateAvatar_trace _ _ _ _
      have h3 : ∃ n3, r3.2.2 = r2.2.2 ++ n3 ∧ ∀ c ∈ n3, c.isGhostUpdate = false := by
        subst e3
        split
        · exact UpdateContactInfo_trace _ _ _ _ _
        · exact ⟨[], by simp⟩
      have h4 : r4.2.2 = r3.2.2 ++ hookCalls := by
        cases hx : info.ExtraUpdates <;> rw [hx] at e4 <;>
          simp only [Prod.mk.injEq] at e4 <;> obtain ⟨e5, e6⟩ := e4 <;> subst e5 e6 <;> simp
      obtain ⟨n1, a1, u1⟩ := h1
      obtain ⟨n2, a2, u2⟩ := h2
      obtain ⟨n3, a3, u3⟩ := h3
      refine ⟨n1 ++ (n2 ++ (n3 ++ hookCalls)), ?_, ?_⟩
      · rw [h4, a3, a2, a1]
        simp only [List.append_assoc]
      · have z1 : n1.countP Call.isGhostUpdate = 0 :=
          List.countP_eq_zero.mpr (fun c hc => by simp [u1 c hc])
        have z2 : n2.countP Call.isGhostUpdate = 0 :=
          List.countP_eq_zero.mpr (fun c hc => by simp [u2 c hc])
        have z3 : n3.countP Call.isGhostUpdate = 0 :=
          List.countP_eq_zero.mpr (fun c hc => by simp [u3 c hc])
        simp only [List.countP_append, z1, z2, z3, Nat.zero_add]
    exact key _ _ _ _ _ rfl rfl rfl rfl

/-- C8: `UpdateInfo` runs `UpdateName` (when `Name` is present), then `UpdateAvatar`
(when `Avatar` is present), then `UpdateContactInfo` (when `Identifiers` or `IsBot` is
present), then the `ExtraUpdates` hook (when present), each once and each on the ghost
and trace left by the one before, whatever the earlier ones returned.  It then appends
exactly one storage `Update` of the resulting row if one of the four returned true and
none otherwise; the sub-updates themselves make no storage `Update`, so the calls added
by `UpdateInfo` hold as many storage updates as the hook made plus that one. -/
theorem UpdateInfo_runs_all (lib : Stdlib) (br : Bridge) (ghost : Ghost) (t : Trace)
    (info : UserInfo) :
    ∃ (r1 r2 r3 r4 : Bool × Ghost × Trace) (hookCalls : List Call),
      r1 = (match info.Name with
        | some name => ghost.UpdateName t name
        | none => (false, ghost, t)) ∧
      r2 = (match info.Avatar with
        | some avatar => r1.2.1.UpdateAvatar lib r1.2.2 avatar
        | none => (false, r1.2.1, r1.2.2)) ∧
      r3 = (if info.Identifiers ≠ none ∨ info.IsBot ≠ none then
          r2.2.1.UpdateContactInfo br r2.2.2 info.Identifiers info.IsBot
        else (false, r2.2.1, r2.2.2)) ∧
      (r4, hookCalls) = (match info.ExtraUpdates with
        | some extraUpdates =>
          (((extraUpdates r3.2.1 r3.2.2).1, (extraUpdates r3.2.1 r3.2.2).2.1,
            r3.2.2 ++ (extraUpdates r3.2.1 r3.2.2).2.2), (extraUpdates r3.2.1 r3.2.2).2.2)
        | none => ((false, r3.2.1, r3.2.2), [])) ∧
      ghost.UpdateInfo lib br t info =
        (r4.2.1, r4.2.2 ++
          (if (r1.1 || r2.1 || r3.1 || r4.1) = true then [Call.GhostUpdate r4.2.1.Ghost]
            else [])) ∧
      ∃ new, r4.2.2 = t ++ new ∧
        new.countP Call.isGhostUpdate = hookCalls.countP Call.isGhostUpdate :=
  UpdateInfo_stages lib br ghost t info

theorem UpdateInfo_trace_extends (lib : Stdlib) (br : Bridge) (ghost : Ghost) (t : Trace)
    (info : UserInfo) : ∃ new, (ghost.UpdateInfo lib br t info).2 = t ++ new := by
  obtain ⟨r1, r2, r3, r4, hookCalls, _, _, _, _, heq, new, hnew, _⟩ :=
    UpdateInfo_stages lib br ghost t info
  rw [heq, hnew]
  exact ⟨_, List.append_assoc _ _ _⟩

/-! ## `UpdateInfoIfNecessary` -/

/-- C9 as stated fails: for a source login whose client reference is nil (as `Disconnect`
leaves it) and a ghost without a name, `UpdateInfoIfNecessary` does not skip, makes no
`GetUserInfo` query and faults on the call through the nil client. -/
theorem UpdateInfoIfNecessary_nil_client_counterexample :
    sampleLoginDisconnected.Client.isNone = true ∧
    ¬ (sampleGhost.Ghost.Name ≠ "" ∧ sampleGhost.Ghost.NameSet = true ∧
      ¬ (sampleBridge.Network.GetCapabilities.AggressiveUpdateInfo = true ∧
        RemoteEventType.RemoteEventMessage ∈
          [RemoteEventType.RemoteEventUnknown, RemoteEventType.RemoteEventMessage,
            RemoteEventType.RemoteEventEdit, RemoteEventType.RemoteEventReaction])) ∧
    (sampleGhost.UpdateInfoIfNecessary sampleLib sampleBridge [] sampleLoginDisconnected
      RemoteEventType.RemoteEventMessage).isNone = true := by
  decide

/-- C9, amended: whatever the source login, `UpdateInfoIfNecessary` returns with the ghost
and the trace untouched (no `GetUserInfo` query) if and only if the name is non-empty and
confirmed and it is not the case that the network has the `AggressiveUpdateInfo`
capability and the event kind is unknown, message, edit or reaction.  In every other
case, when the source login has a client attached, it makes the one `GetUserInfo` query
first and then runs `UpdateInfo` exactly when the query succeeded with a non-nil result;
otherwise it stops after the query with the ghost unchanged. -/
theorem UpdateInfoIfNecessary_gate (lib : Stdlib) (br : Bridge) (ghost : Ghost) (t : Trace)
    (source : UserLogin) (evtType : RemoteEventType) :
    (ghost.UpdateInfoIfNecessary lib br t source evtType = some (ghost, t) ↔
      (ghost.Ghost.Name ≠ "" ∧ ghost.Ghost.NameSet = true ∧
        ¬ (br.Network.GetCapabilities.AggressiveUpdateInfo = true ∧
          evtType ∈ [RemoteEventType.RemoteEventUnknown, RemoteEventType.RemoteEventMessage,
            RemoteEventType.RemoteEventEdit, RemoteEventType.RemoteEventReaction]))) ∧
    (∀ client, source.Client = some client →
      ¬ (ghost.Ghost.Name ≠ "" ∧ ghost.Ghost.NameSet = true ∧
        ¬ (br.Network.GetCapabilities.AggressiveUpdateInfo = true ∧
          evtType ∈ [RemoteEventType.RemoteEventUnknown, RemoteEventType.RemoteEventMessage,
            RemoteEventType.RemoteEventEdit, RemoteEventType.RemoteEventReaction])) →
      ghost.UpdateInfoIfNecessary lib br t source evtType =
        some (match client.GetUserInfo t ghost.Ghost with
          | .ok (some info) => ghost.UpdateInfo lib br (t ++ [Call.GetUserInfo ghost.Ghost]) info
          | _ => (ghost, t ++ [Call.GetUserInfo ghost.Ghost]))) := by
  have hallow : br.allowAggressiveUpdateForType evtType = false ↔
      ¬ (br.Network.GetCapabilities.AggressiveUpdateInfo = true ∧
        evtType ∈ [RemoteEventType.RemoteEventUnknown, RemoteEventType.RemoteEventMessage,
          RemoteEventType.RemoteEventEdit, RemoteEventType.RemoteEventReaction]) := by
    unfold Bridge.allowAggressiveUpdateForType
    cases br.Network.GetCapabilities.AggressiveUpdateInfo <;> cases evtType <;> simp
  have hrun : ∀ client, source.Client = some client →
      ¬ (ghost.Ghost.Name ≠ "" ∧ ghost.Ghost.NameSet = true ∧
        br.allowAggressiveUpdateForType evtType = false) →
      ghost.UpdateInfoIfNecessary lib br t source evtType =
        some (match client.GetUserInfo t ghost.Ghost with
          | .ok (some info) => ghost.UpdateInfo lib br (t ++ [Call.GetUserInfo ghost.Ghost]) info
          | _ => (ghost, t ++ [Call.GetUserInfo ghost.Ghost])) := by
    intro client hc hn
    unfold Ghost.UpdateInfoIfNecessary
    rw [if_neg hn, hc]
    simp only []
    split <;> simp_all
  rw [← hallow]
  refine ⟨⟨?_, ?_⟩, hrun⟩
  · intro hres
    by_contra hn
    cases hc : source.Client with
    | none =>
      unfold Ghost.UpdateInfoIfNecessary at hres
      rw [if_neg hn, hc] at hres
      cases hres
    | some client =>
      rw [hrun client hc hn] at hres
      have hlen : ∀ new : List Call, t ++ [Call.GetUserInfo ghost.Ghost] ++ new ≠ t := by
        intro new h
        have := congrArg List.length h
        simp at this
      split at hres
      · next info _ =>
        obtain ⟨new, hnew⟩ := UpdateInfo_trace_extends lib br ghost
          (t ++ [Call.GetUserInfo ghost.Ghost]) info
        have h2 := congrArg Prod.snd (Option.some.inj hres)
        rw [hnew] at h2
        exact hlen new h2
      · have h2 := congrArg Prod.snd (Option.some.inj hres)
        simp at h2
  · intro hs
    unfold Ghost.UpdateInfoIfNecessary
    rw [if_pos hs]

theorem UpdateInfoIfNecessary_gate_witness :
    sampleLogin.Client = some sampleClient ∧
    ¬ (sampleGhost.Ghost.Name ≠ "" ∧ sampleGhost.Ghost.NameSet = true ∧
      ¬ (sampleBridge.Network.GetCapabilities.AggressiveUpdateInfo = true ∧
        RemoteEventType.RemoteEventMessage ∈
          [RemoteEventType.RemoteEventUnknown, RemoteEventType.RemoteEventMessage,
            RemoteEventType.RemoteEventEdit, RemoteEventType.RemoteEventReaction])) ∧
    sampleGhost.UpdateInfoIfNecessary sampleLib sampleBridge [] sampleLogin
        RemoteEventType.RemoteEventMessage =
      some (match sampleClient.GetUserInfo [] sampleGhost.Ghost with
        | .ok (some info) =>
          sampleGhost.UpdateInfo sampleLib sampleBridge
            ([] ++ [Call.GetUserInfo sampleGhost.Ghost]) info
        | _ => (sampleGhost, [] ++ [Call.GetUserInfo sampleGhost.Ghost])) :=
  ⟨rfl, by decide,
   (UpdateInfoIfNecessary_gate sampleLib sampleBridge sampleGhost [] sampleLogin
    RemoteEventType.RemoteEventMessage).2 sampleClient rfl (by decide)⟩

/-! ## `UserLogin.Delete` -/

/-- C10: for a login with a client attached, whatever the terminal state, the value of
`logoutRemote` and the answers of the remote client and of the storage layer, `Delete`
returns, and afterwards the login's id is in neither the bridge-wide `userLoginsByID`
map (so `GetCachedUserLoginByID` returns nil) nor the owning user's `logins` map, while
the entries of every other id in both maps are as before. -/
theorem Delete_evicts_login (br : Bridge) (user : User) (ul : UserLogin) (t : Trace)
    (state : status.BridgeState) (logoutRemote : Bool) (client : NetworkAPI)
    (hc : ul.Client = some client) :
    ∃ br1 user1 ul1 t1,
      ul.Delete br user t state logoutRemote = some (br1, user1, ul1, t1) ∧
      br1.GetCachedUserLoginByID ul.UserLogin.ID = none ∧
      user1.logins.get ul.UserLogin.ID = none ∧
      ∀ id, id ≠ ul.UserLogin.ID →
        br1.GetCachedUserLoginByID id = br.GetCachedUserLoginByID id ∧
        user1.logins.get id = user.logins.get id := by
  have hres : ∃ ul1 t1, ul.Delete br user t state logoutRemote =
      some ({ br with userLoginsByID := br.userLoginsByID.delete ul.UserLogin.ID },
        { user with logins := user.logins.delete ul.UserLogin.ID }, ul1, t1) := by
    cases logoutRemote <;> simp [UserLogin.Delete, UserLogin.Disconnect, hc]
  obtain ⟨ul1, t1, hdel⟩ := hres
  refine ⟨_, _, ul1, t1, hdel, ?_, ?_, ?_⟩
  · exact GoMap.get_delete_self _ _
  · exact GoMap.get_delete_self _ _
  · intro id hid
    exact ⟨GoMap.get_delete_ne _ _ _ hid, GoMap.get_delete_ne _ _ _ hid⟩

theorem Delete_evicts_login_witness :
    sampleLogin.Client = some sampleClient ∧
    ∃ br1 user1 ul1 t1,
      sampleLogin.Delete sampleBridgeLoggedIn sampleUser [] { StateEvent := "LOGGED_OUT" } true =
        some (br1, user1, ul1, t1) ∧
      br1.GetCachedUserLoginByID sampleLogin.UserLogin.ID = none ∧
      user1.logins.get sampleLogin.UserLogin.ID = none ∧
      ∀ id, id ≠ sampleLogin.UserLogin.ID →
        br1.GetCachedUserLoginByID id = sampleBridgeLoggedIn.GetCachedUserLoginByID id ∧
        user1.logins.get id = sampleUser.logins.get id :=
  ⟨rfl, Delete_evicts_login sampleBridgeLoggedIn sampleUser sampleLogin []
    { StateEvent := "LOGGED_OUT" } true sampleClient rfl⟩

/-! ## `Avatar.Reupload` -/

/-- C19: an avatar with a pre-resolved reference (non-empty `MXC`) makes `Reupload`
return exactly that reference and the supplied `Hash` with no error, whatever the
current hash, and make no call at all (neither `Get` nor `UploadMedia`).  An avatar
without such a reference whose fetched content hashes to the current hash makes it
return the empty reference with that hash and no error, after the one `Get` call and no
`UploadMedia` call. -/
theorem Reupload_short_circuits (lib : Stdlib) (a : Avatar) (intent : MatrixAPI)
    (currentHash : Hash32) (t : Trace) :
    (a.MXC ≠ "" → a.Reupload lib intent currentHash t = ((a.MXC, a.Hash, none), t)) ∧
    (a.MXC = "" → ∀ data, a.Get t = .ok data → lib.Sum256 data = currentHash →
      a.Reupload lib intent currentHash t =
        (("", currentHash, none), t ++ [Call.AvatarGet a.ID])) := by
  constructor
  · intro h
    simp [Avatar.Reupload, h]
  · intro h data hget hsum
    simp [Avatar.Reupload, h, hget, hsum]

theorem Reupload_short_circuits_witness :
    ({ sampleAvatarA1 with MXC := "mxc://example/pre", Hash := [7] } : Avatar).Reupload
        sampleLib sampleIntentFail zeroHash [] = (("mxc://example/pre", [7], none), []) ∧
    sampleAvatarEmpty.Reupload sampleLib sampleIntentFail zeroHash [] =
      (("", zeroHash, none), [Call.AvatarGet "a1"]) :=
  ⟨(Reupload_short_circuits sampleLib
      { sampleAvatarA1 with MXC := "mxc://example/pre", Hash := [7] } sampleIntentFail
      zeroHash []).1 (by decide),
   (Reupload_short_circuits sampleLib sampleAvatarEmpty sampleIntentFail zeroHash []).2
      rfl [] rfl (by decide)⟩

/-! ## `UserLogin.Delete` without a client -/

/-- C13 (the code departs from the claim): on a login whose client reference was cleared
by `Disconnect`, `Delete` with `logoutRemote = true` calls `LogoutRemote` through the nil
client and faults before any storage or cache step; with `logoutRemote = false` it runs
to completion without a client call (the trace starts with the call of the earlier
`Disconnect`). -/
theorem Delete_faults_without_client :
    sampleLoginDisconnected.Client.isNone = true ∧
    (sampleLoginDisconnected.Delete sampleBridgeLoggedIn sampleUser [Call.ClientDisconnect]
      { StateEvent := "LOGGED_OUT" } true).isNone = true ∧
    (sampleLoginDisconnected.Delete sampleBridgeLoggedIn sampleUser [Call.ClientDisconnect]
      { StateEvent := "LOGGED_OUT" } false).map (fun r => r.2.2.2) =
      some [Call.ClientDisconnect, Call.GetAllForLogin sampleLogin.UserLogin,
        Call.UserLoginDelete "login1", Call.GoDeleteSpace "login1",
        Call.GoKickUserFromPortals "login1" [],
        Call.BridgeStateSend { StateEvent := "LOGGED_OUT" }, Call.BridgeStateDestroy] := by
  decide

/-! ## Metadata updater combinators -/

theorem GoMap.get_set_self {V : Type} (m : GoMap V) (k : String) (v : V) :
    (m.set k v).get k = some v := by
  simp [GoMap.get, GoMap.set]

theorem GoMap.get_set_ne {V : Type} (m : GoMap V) (k k1 : String) (v : V) (h : k1 ≠ k) :
    (m.set k v).get k1 = m.get k1 := by
  have h1 := GoMap.get_delete_ne m k k1 h
  have hk : ¬ k = k1 := fun e => h e.symm
  simpa [GoMap.get, GoMap.set, List.find?_cons, hk] using h1

theorem MergeExtraUpdaters_fold {T : Type} (funcs : List (Updater T)) (t : Trace)
    (acc : Bool × T × List Call) :
    funcs.foldl
      (fun (acc : Bool × T × List Call) f =>
        let r := f acc.2.1 (t ++ acc.2.2)
        (r.1 || acc.1, r.2.1, acc.2.2 ++ r.2.2)) acc =
      ((runEachOnce funcs acc.2.1 (t ++ acc.2.2)).1.any id || acc.1,
        (runEachOnce funcs acc.2.1 (t ++ acc.2.2)).2.1,
        acc.2.2 ++ (runEachOnce funcs acc.2.1 (t ++ acc.2.2)).2.2) := by
  induction funcs generalizing acc with
  | nil => simp [runEachOnce]
  | cons f fs ih =>
    rw [List.foldl_cons, ih]
    simp only [runEachOnce, List.any_cons, id, List.append_assoc, Bool.or_assoc]
    cases (f acc.2.1 (t ++ acc.2.2)).1 <;> simp [Bool.or_comm]

theorem runEachOnce_length {T : Type} (funcs : List (Updater T)) (obj : T) (t : Trace) :
    (runEachOnce funcs obj t).1.length = funcs.length := by
  induction funcs generalizing obj t with
  | nil => rfl
  | cons f fs ih => simp [runEachOnce, ih]

/-- C15: the updater built by `MergeExtraUpdaters` runs each given updater exactly once,
in the given order, each on the entity left by the one before it (also after an earlier
one returned true), and returns true if and only if one of them returned true; for the
empty sequence it returns false and touches nothing. -/
theorem MergeExtraUpdaters_runs_all {T : Type} (funcs : List (Updater T)) (obj : T)
    (t : Trace) :
    MergeExtraUpdaters funcs obj t =
      ((runEachOnce funcs obj t).1.any id, (runEachOnce funcs obj t).2.1,
        (runEachOnce funcs obj t).2.2) ∧
    (runEachOnce funcs obj t).1.length = funcs.length ∧
    ((MergeExtraUpdaters funcs obj t).1 = true ↔ true ∈ (runEachOnce funcs obj t).1) ∧
    MergeExtraUpdaters ([] : List (Updater T)) obj t = (false, obj, []) ∧
    (∀ (f : Updater T) (fs : List (Updater T)),
      MergeExtraUpdaters (f :: fs) obj t =
        ((f obj t).1 || (MergeExtraUpdaters fs (f obj t).2.1 (t ++ (f obj t).2.2)).1,
          (MergeExtraUpdaters fs (f obj t).2.1 (t ++ (f obj t).2.2)).2.1,
          (f obj t).2.2 ++ (MergeExtraUpdaters fs (f obj t).2.1 (t ++ (f obj t).2.2)).2.2)) := by
  have hmain : ∀ (gs : List (Updater T)) (o : T) (u : Trace), MergeExtraUpdaters gs o u =
      ((runEachOnce gs o u).1.any id, (runEachOnce gs o u).2.1, (runEachOnce gs o u).2.2) := by
    intro gs o u
    unfold MergeExtraUpdaters
    rw [MergeExtraUpdaters_fold]
    simp
  refine ⟨hmain funcs obj t, runEachOnce_length funcs obj t, ?_, rfl, ?_⟩
  · rw [hmain]
    simp [List.any_eq_true]
  · intro f fs
    rw [hmain, hmain]
    simp [runEachOnce]

theorem typeAssert_index_iff {M : Type} [MetaType M]
    (m : Option (List (String × database.AnyValue))) (key : String) (value : M) :
    (mapIndex m key).bind MetaType.typeAssert = some value ↔
      mapIndex m key = some (MetaType.toAny value) := by
  constructor
  · intro h
    cases hx : mapIndex m key with
    | none => simp [hx] at h
    | some a =>
      rw [hx] at h
      simp only [Option.some_bind] at h
      rw [MetaType.toAny_of_typeAssert a value h]
  · intro h
    rw [h]
    exact MetaType.typeAssert_toAny value

theorem SimpleMetadataUpdater_hit {M : Type} [Comparable M] [MetaType M] (ghost : Ghost)
    (key : String) (value cur : M)
    (hcur : mapIndex ghost.Ghost.Metadata.Extra key = some (MetaType.toAny cur))
    (heq : Comparable.eq cur value = true) :
    SimpleMetadataUpdater key value ghost = some (false, ghost) := by
  unfold SimpleMetadataUpdater simpleMetadataUpdater
  simp only [(typeAssert_index_iff _ key cur).mpr hcur, heq, if_true]

theorem SimpleMetadataUpdater_miss {M : Type} [Comparable M] [MetaType M] (ghost : Ghost)
    (key : String) (value : M) (entries : List (String × database.AnyValue))
    (hm : ghost.Ghost.Metadata.Extra = some entries)
    (hne : ¬ ∃ cur : M, mapIndex (some entries) key = some (MetaType.toAny cur) ∧
      Comparable.eq cur value = true) :
    SimpleMetadataUpdater key value ghost = some (true,
      { ghost with
        Ghost.Metadata.Extra :=
          some ((GoMap.mk entries).set key (MetaType.toAny value)).entries }) := by
  unfold SimpleMetadataUpdater simpleMetadataUpdater
  simp only [hm]
  cases hg : (mapIndex (some entries) key).bind (MetaType.typeAssert (M := M)) with
  | none => simp
  | some cur =>
    have hcur := (typeAssert_index_iff (some entries) key cur).mp hg
    have hf : Comparable.eq cur value = false := by
      cases hb : Comparable.eq cur value
      · rfl
      · exact absurd ⟨cur, hcur, hb⟩ hne
    simp [hf]

/-- C14 as stated fails: applied to a ghost with a non-nil extension map, the updater for
the `float64` value NaN returns true, and applied again to the result it returns true
again, because `NaN == NaN` is false. -/
theorem SimpleMetadataUpdater_nan_counterexample :
    sampleGhostExtra.Ghost.Metadata.Extra ≠ none ∧
    (SimpleMetadataUpdater "ratio" Float64.nan sampleGhostExtra).map (fun r => r.1) =
      some true ∧
    ((SimpleMetadataUpdater "ratio" Float64.nan sampleGhostExtra).bind
      (fun r => SimpleMetadataUpdater "ratio" Float64.nan r.2)).map (fun r => r.1) =
      some true := by
  decide

/-- C14, amended: on a ghost whose extension map is non-nil, `SimpleMetadataUpdater(key,
value)` returns false and leaves the ghost as it is exactly when the map already holds,
under `key`, a value of the same type that is `==` to `value`; otherwise it returns true,
stores `value` under `key`, and changes neither another key nor another field.  For a
`value` that is `==` to itself (every value but a floating-point NaN), applying the same
updater again to the result returns false and changes nothing. -/
theorem SimpleMetadataUpdater_idempotent {M : Type} [Comparable M] [MetaType M]
    (ghost : Ghost) (key : String) (value : M)
    (entries : List (String × database.AnyValue))
    (hm : ghost.Ghost.Metadata.Extra = some entries) :
    ((∃ cur : M, mapIndex (some entries) key = some (MetaType.toAny cur) ∧
        Comparable.eq cur value = true) →
      SimpleMetadataUpdater key value ghost = some (false, ghost)) ∧
    ((¬ ∃ cur : M, mapIndex (some entries) key = some (MetaType.toAny cur) ∧
        Comparable.eq cur value = true) →
      ∃ g, SimpleMetadataUpdater key value ghost = some (true, g) ∧
        mapIndex g.Ghost.Metadata.Extra key = some (MetaType.toAny value) ∧
        (∀ k, k ≠ key → mapIndex g.Ghost.Metadata.Extra k = mapIndex (some entries) k) ∧
        g = { ghost with Ghost.Metadata.Extra := g.Ghost.Metadata.Extra }) ∧
    (Comparable.eq value value = true →
      ∃ b g, SimpleMetadataUpdater key value ghost = some (b, g) ∧
        SimpleMetadataUpdater key value g = some (false, g)) := by
  refine ⟨?_, ?_, ?_⟩
  · intro ⟨cur, hcur, heq⟩
    exact SimpleMetadataUpdater_hit ghost key value cur (by rw [hm]; exact hcur) heq
  · intro hne
    refine ⟨_, SimpleMetadataUpdater_miss ghost key value entries hm hne, ?_, ?_, rfl⟩
    · exact GoMap.get_set_self _ _ _
    · intro k hk
      exact GoMap.get_set_ne _ _ _ _ hk
  · intro hrefl
    by_cases h : ∃ cur : M, mapIndex (some entries) key = some (MetaType.toAny cur) ∧
        Comparable.eq cur value = true
    · obtain ⟨cur, hcur, heq⟩ := h
      have hhit := SimpleMetadataUpdater_hit ghost key value cur (by rw [hm]; exact hcur) heq
      exact ⟨false, ghost, hhit, hhit⟩
    · exact ⟨true, _, SimpleMetadataUpdater_miss ghost key value entries hm h,
        SimpleMetadataUpdater_hit _ key value value (GoMap.get_set_self _ _ _) hrefl⟩

theorem SimpleMetadataUpdater_idempotent_witness :
    sampleGhostExtra.Ghost.Metadata.Extra = some [("colour", database.AnyValue.str "blue")] ∧
    Comparable.eq "red" "red" = true ∧
    SimpleMetadataUpdater "colour" "blue" sampleGhostExtra = some (false, sampleGhostExtra) ∧
    ∃ b g, SimpleMetadataUpdater "colour" "red" sampleGhostExtra = some (b, g) ∧
      SimpleMetadataUpdater "colour" "red" g = some (false, g) :=
  have h := SimpleMetadataUpdater_idempotent sampleGhostExtra "colour" "blue"
    [("colour", database.AnyValue.str "blue")] rfl
  have h2 := SimpleMetadataUpdater_idempotent sampleGhostExtra "colour" "red"
    [("colour", database.AnyValue.str "blue")] rfl
  ⟨rfl, by decide, h.1 ⟨"blue", by decide, by decide⟩, h2.2.2 (by decide)⟩

/-! ## Ghost lookup (`loadGhost`, `GetGhostByID`) -/

theorem GetGhostByID_cached (br : Bridge) (t : Trace) (id : String) (g : Ghost)
    (h : br.ghostsByID.get id = some g) :
    br.GetGhostByID t id = ((some g, none), br, t) := by
  simp [Bridge.GetGhostByID, Bridge.unlockedGetGhostByID, h]

theorem GetGhostByID_DB (br : Bridge) (t : Trace) (id : String) :
    (br.GetGhostByID t id).2.1.DB = br.DB := by
  unfold Bridge.GetGhostByID Bridge.unlockedGetGhostByID
  split
  · rfl
  · simp only [Bridge.loadGhost, Bridge.registerGhost]
    repeat' split
    all_goals rfl

theorem GetGhostByID_preserves (br : Bridge) (t : Trace) (id : String)
    (hdb : ∀ t id row, (br.DB.GhostGetByID t id).1 = some row → row.ID = id)
    (k : String) (g : Ghost) (hk : br.ghostsByID.get k = some g) :
    (br.GetGhostByID t id).2.1.ghostsByID.get k = some g := by
  unfold Bridge.GetGhostByID Bridge.unlockedGetGhostByID
  split
  · exact hk
  · next hun =>
    have hne : k ≠ id := by
      intro e
      rw [e, hun] at hk
      cases hk
    simp only [Bridge.loadGhost, Bridge.registerGhost]
    split
    · exact hk
    · split
      · next row hrow =>
        have hid := hdb t id row hrow
        simp only [hid]
        rw [GoMap.get_set_ne _ _ _ _ hne]
        exact hk
      · simp only [Bool.false_eq_true, if_false]
        split
        · exact hk
        · simp only []
          rw [GoMap.get_set_ne _ _ _ _ hne]
          exact hk

theorem GetGhostByID_registers (br : Bridge) (t : Trace) (id : String)
    (hdb : ∀ t id row, (br.DB.GhostGetByID t id).1 = some row → row.ID = id)
    (g : Ghost) (br1 : Bridge) (t1 : Trace)
    (hres : br.GetGhostByID t id = ((some g, none), br1, t1)) :
    br1.ghostsByID.get id = some g := by
  revert hres
  unfold Bridge.GetGhostByID Bridge.unlockedGetGhostByID
  split
  · next cached hc =>
    intro hres
    simp only [Prod.mk.injEq, Option.some.injEq, true_and] at hres
    rw [← hres.2.1, ← hres.1.1]
    exact hc
  · simp only [Bridge.loadGhost, Bridge.registerGhost]
    split
    · intro hres
      simp at hres
    · split
      · next row hrow =>
        have hid := hdb t id row hrow
        intro hres
        simp only [Prod.mk.injEq, Option.some.injEq, true_and] at hres
        rw [← hres.2.1, ← hres.1.1]
        simp only [hid]
        exact GoMap.get_set_self _ _ _
      · simp only [Bool.false_eq_true, if_false]
        split
        · intro hres
          simp at hres
        · intro hres
          simp only [Prod.mk.injEq, Option.some.injEq, true_and] at hres
          rw [← hres.2.1, ← hres.1.1]
          exact GoMap.get_set_self _ _ _

theorem lookupGhosts_preserves (ids : List String) (br : Bridge) (t : Trace)
    (hdb : ∀ t id row, (br.DB.GhostGetByID t id).1 = some row → row.ID = id)
    (k : String) (g : Ghost) (hk : br.ghostsByID.get k = some g) :
    (br.lookupGhosts t ids).1.ghostsByID.get k = some g := by
  induction ids generalizing br t with
  | nil => exact hk
  | cons id ids ih =>
    simp only [Bridge.lookupGhosts]
    apply ih
    · rw [GetGhostByID_DB]
      exact hdb
    · exact GetGhostByID_preserves br t id hdb k g hk

/-- C11: a cached id is answered from the cache with no storage call.  An uncached id is
looked up in storage; a stored row is wrapped without an insert, a missing row is first
inserted as the minimal row (bridge id, id), and the new instance is registered in the
cache.  After a successful `GetGhostByID(id)`, and after any further ghost lookups, a
later `GetGhostByID(id)` returns that same instance with no storage call; a ghost lookup
never replaces or removes an existing cache entry.  The storage layer is taken to answer
a query by id with a row of that id. -/
theorem GetGhostByID_one_instance (br : Bridge) (t : Trace) (id : String)
    (hdb : ∀ t id row, (br.DB.GhostGetByID t id).1 = some row → row.ID = id) :
    (∀ g, br.ghostsByID.get id = some g → br.GetGhostByID t id = ((some g, none), br, t)) ∧
    (br.ghostsByID.get id = none → ∀ row, br.DB.GhostGetByID t id = (some row, none) →
      br.GetGhostByID t id =
        ((some { Ghost := row, Intent := br.Matrix.GhostIntent row.ID }, none),
          { br with
            ghostsByID := br.ghostsByID.set row.ID
              { Ghost := row, Intent := br.Matrix.GhostIntent row.ID } },
          t ++ [Call.GhostGetByID id])) ∧
    (br.ghostsByID.get id = none → br.DB.GhostGetByID t id = (none, none) →
      br.DB.GhostInsert (t ++ [Call.GhostGetByID id])
        { database.Ghost.zero with BridgeID := br.ID, ID := id } = none →
      br.GetGhostByID t id =
        ((some { Ghost := { database.Ghost.zero with BridgeID := br.ID, ID := id },
                 Intent := br.Matrix.GhostIntent id }, none),
          { br with
            ghostsByID := br.ghostsByID.set id
              { Ghost := { database.Ghost.zero with BridgeID := br.ID, ID := id },
                Intent := br.Matrix.GhostIntent id } },
          t ++ [Call.GhostGetByID id,
            Call.GhostInsert { database.Ghost.zero with BridgeID := br.ID, ID := id }])) ∧
    (∀ g br1 t1, br.GetGhostByID t id = ((some g, none), br1, t1) →
      br1.ghostsByID.get id = some g ∧
      ∀ ids, (br1.lookupGhosts t1 ids).1.GetGhostByID (br1.lookupGhosts t1 ids).2 id =
        ((some g, none), (br1.lookupGhosts t1 ids).1, (br1.lookupGhosts t1 ids).2)) ∧
    (∀ id1 k g, br.ghostsByID.get k = some g →
      (br.GetGhostByID t id1).2.1.ghostsByID.get k = some g) := by
  refine ⟨fun g h => GetGhostByID_cached br t id g h, ?_, ?_, ?_, ?_⟩
  · intro hun row hq
    simp [Bridge.GetGhostByID, Bridge.unlockedGetGhostByID, Bridge.loadGhost,
      Bridge.registerGhost, hun, hq]
  · intro hun hq hins
    simp [Bridge.GetGhostByID, Bridge.unlockedGetGhostByID, Bridge.loadGhost,
      Bridge.registerGhost, hun, hq, hins]
  · intro g br1 t1 hres
    have hreg := GetGhostByID_registers br t id hdb g br1 t1 hres
    refine ⟨hreg, ?_⟩
    intro ids
    apply GetGhostByID_cached
    apply lookupGhosts_preserves ids br1 t1 _ id g hreg
    have hbr : br1 = (br.GetGhostByID t id).2.1 := by rw [hres]
    rw [hbr, GetGhostByID_DB]
    exact hdb
  · intro id1 k g hk
    exact GetGhostByID_preserves br t id1 hdb k g hk

theorem GetGhostByID_one_instance_witness :
    (∀ t id row, (sampleBridgeWithGhost.DB.GhostGetByID t id).1 = some row → row.ID = id) ∧
    ∀ g br1 t1, sampleBridgeWithGhost.GetGhostByID [] "u1" = ((some g, none), br1, t1) →
      br1.ghostsByID.get "u1" = some g ∧
      ∀ ids, (br1.lookupGhosts t1 ids).1.GetGhostByID (br1.lookupGhosts t1 ids).2 "u1" =
        ((some g, none), (br1.lookupGhosts t1 ids).1, (br1.lookupGhosts t1 ids).2) :=
  have hdb : ∀ t id row,
      (sampleBridgeWithGhost.DB.GhostGetByID t id).1 = some row → row.ID = id := by
    intro t id row h
    by_cases hid : id = "u1"
    · simp [sampleBridgeWithGhost, sampleDBWithGhost, hid] at h
      rw [← h, hid]
      rfl
    · simp [sampleBridgeWithGhost, sampleDBWithGhost, hid] at h
  ⟨hdb, (GetGhostByID_one_instance sampleBridgeWithGhost [] "u1" hdb).2.2.2.1⟩

/-- C20: for an uncached id, `GetGhostByID` returns an error exactly when the storage
query fails or the insert of the missing row fails.  In both cases it returns no ghost and
leaves the bridge, and so the cache, as it was; after a failed query the only call
made is the query (no insert).  With `onlyIfExists`, an id absent from storage yields
neither a ghost nor an error, makes no insert and leaves the bridge as it was. -/
theorem GetGhostByID_errors (br : Bridge) (t : Trace) (id : String)
    (hun : br.ghostsByID.get id = none) :
    (∀ e, (br.DB.GhostGetByID t id).2 = some e →
      br.GetGhostByID t id =
        ((none, some ("failed to query db: " ++ e)), br, t ++ [Call.GhostGetByID id])) ∧
    (br.DB.GhostGetByID t id = (none, none) → ∀ e,
      br.DB.GhostInsert (t ++ [Call.GhostGetByID id])
        { database.Ghost.zero with BridgeID := br.ID, ID := id } = some e →
      br.GetGhostByID t id =
        ((none, some ("failed to insert new ghost: " ++ e)), br,
          t ++ [Call.GhostGetByID id,
            Call.GhostInsert { database.Ghost.zero with BridgeID := br.ID, ID := id }])) ∧
    ((br.GetGhostByID t id).1.2 ≠ none ↔
      ((br.DB.GhostGetByID t id).2 ≠ none ∨
        (br.DB.GhostGetByID t id = (none, none) ∧
          br.DB.GhostInsert (t ++ [Call.GhostGetByID id])
            { database.Ghost.zero with BridgeID := br.ID, ID := id } ≠ none))) ∧
    (br.DB.GhostGetByID t id = (none, none) →
      br.unlockedGetGhostByID t id true = ((none, none), br, t ++ [Call.GhostGetByID id])) := by
  refine ⟨?_, ?_, ?_, ?_⟩
  · intro e he
    simp [Bridge.GetGhostByID, Bridge.unlockedGetGhostByID, Bridge.loadGhost, hun, he]
  · intro hq e hins
    simp [Bridge.GetGhostByID, Bridge.unlockedGetGhostByID, Bridge.loadGhost, hun, hq, hins]
  · rcases hq : br.DB.GhostGetByID t id with ⟨db, err⟩
    cases err with
    | some e =>
      simp [Bridge.GetGhostByID, Bridge.unlockedGetGhostByID, Bridge.loadGhost, hun, hq]
    | none =>
      cases db with
      | some row =>
        simp [Bridge.GetGhostByID, Bridge.unlockedGetGhostByID, Bridge.loadGhost,
          Bridge.registerGhost, hun, hq]
      | none =>
        cases hins : br.DB.GhostInsert (t ++ [Call.GhostGetByID id])
            { database.Ghost.zero with BridgeID := br.ID, ID := id } <;>
          simp [Bridge.GetGhostByID, Bridge.unlockedGetGhostByID, Bridge.loadGhost,
            Bridge.registerGhost, hun, hq, hins]
  · intro hq
    simp [Bridge.unlockedGetGhostByID, Bridge.loadGhost, hun, hq]

theorem GetGhostByID_errors_witness :
    sampleBridgeDown.ghostsByID.get "u1" = none ∧
    sampleBridgeDown.GetGhostByID [] "u1" =
      ((none, some ("failed to query db: " ++ "connection refused")), sampleBridgeDown,
        [] ++ [Call.GhostGetByID "u1"]) ∧
    sampleBridgeWithGhost.GetGhostByID [] "full" =
      ((none, some ("failed to insert new ghost: " ++ "disk full")), sampleBridgeWithGhost,
        [] ++ [Call.GhostGetByID "full",
          Call.GhostInsert { database.Ghost.zero with BridgeID := "br", ID := "full" }]) :=
  ⟨rfl, (GetGhostByID_errors sampleBridgeDown [] "u1" rfl).1 "connection refused" rfl,
   (GetGhostByID_errors sampleBridgeWithGhost [] "full" rfl).2.1 rfl "disk full" rfl⟩

/-! ## Loading logins (`loadUserLogin`, `loadManyUserLogins`) -/

theorem loadUserLogin_known (getUser : GetUserByMXID) (br : Bridge) (t : Trace) (user : User)
    (row : database.UserLogin) :
    br.loadUserLogin getUser t (some user) (some row) =
      match (br.Network.LoadUserLogin t { UserLogin := row, Client := none }).2 with
      | some _ => some ((none, none), br, some user, t ++ [Call.LoadUserLogin row])
      | none =>
        some ((some { UserLogin := row,
                      Client := (br.Network.LoadUserLogin t
                        { UserLogin := row, Client := none }).1 }, none),
          { br with
            userLoginsByID := br.userLoginsByID.set row.ID
              { UserLogin := row,
                Client := (br.Network.LoadUserLogin t { UserLogin := row, Client := none }).1 } },
          some { user with
            logins := user.logins.set row.ID
              { UserLogin := row,
                Client := (br.Network.LoadUserLogin t { UserLogin := row, Client := none }).1 } },
          t ++ [Call.LoadUserLogin row, Call.NewBridgeStateQueue row.ID]) := by
  unfold Bridge.loadUserLogin
  simp only []
  split <;> simp

theorem loadManyUserLoginsLoop_known (getUser : GetUserByMXID) (rows : List database.UserLogin)
    (br : Bridge) (t : Trace) (user : User) (output : List UserLogin) :
    Bridge.loadManyUserLoginsLoop getUser br t (some user) output rows =
      some ((some (output ++ (loadEach br user t rows).1), none),
        (loadEach br user t rows).2.1, some (loadEach br user t rows).2.2.1,
        (loadEach br user t rows).2.2.2) := by
  induction rows generalizing br t user output with
  | nil => simp [Bridge.loadManyUserLoginsLoop, loadEach]
  | cons row rows ih =>
    unfold Bridge.loadManyUserLoginsLoop loadEach
    cases hc : br.userLoginsByID.get row.ID with
    | some cached =>
      simp only []
      rw [ih]
      simp
    | none =>
      simp only []
      rw [loadUserLogin_known]
      cases ha : (br.Network.LoadUserLogin t { UserLogin := row, Client := none }).2 with
      | some e =>
        simp only []
        rw [ih]
      | none =>
        simp only []
        rw [ih]
        simp

theorem loadEach_frame (rows : List database.UserLogin) (br : Bridge) (user : User)
    (t : Trace) :
    (loadEach br user t rows).2.1.Network = br.Network ∧
    ∀ k, k ∉ rows.map (fun row => row.ID) →
      (loadEach br user t rows).2.1.userLoginsByID.get k = br.userLoginsByID.get k ∧
      (loadEach br user t rows).2.2.1.logins.get k = user.logins.get k := by
  induction rows generalizing br user t with
  | nil => simp [loadEach]
  | cons row rows ih =>
    unfold loadEach
    cases hc : br.userLoginsByID.get row.ID with
    | some cached =>
      simp only []
      refine ⟨(ih br user t).1, ?_⟩
      intro k hk
      simp only [List.map_cons, List.mem_cons, not_or] at hk
      exact (ih br user t).2 k hk.2
    | none =>
      simp only []
      cases ha : (br.Network.LoadUserLogin t { UserLogin := row, Client := none }).2 with
      | some e =>
        simp only []
        refine ⟨(ih _ _ _).1, ?_⟩
        intro k hk
        simp only [List.map_cons, List.mem_cons, not_or] at hk
        exact (ih _ _ _).2 k hk.2
      | none =>
        simp only []
        refine ⟨(ih _ _ _).1, ?_⟩
        intro k hk
        simp only [List.map_cons, List.mem_cons, not_or] at hk
        have h := (ih
          { br with
            userLoginsByID := br.userLoginsByID.set row.ID
              { UserLogin := row,
                Client := (br.Network.LoadUserLogin t { UserLogin := row, Client := none }).1 } }
          { user with
            logins := user.logins.set row.ID
              { UserLogin := row,
                Client := (br.Network.LoadUserLogin t { UserLogin := row, Client := none }).1 } }
          (t ++ [Call.LoadUserLogin row, Call.NewBridgeStateQueue row.ID])).2 k hk.2
        rw [h.1, h.2]
        exact ⟨GoMap.get_set_ne _ _ _ _ hk.1, GoMap.get_set_ne _ _ _ _ hk.1⟩

theorem loadEach_outcomes (rows : List database.UserLogin)
    (hnd : (rows.map (fun row => row.ID)).Nodup) (br : Bridge) (user : User) (t : Trace) :
    (loadEach br user t rows).1 =
      rows.filterMap (fun row => (loadEach br user t rows).2.1.userLoginsByID.get row.ID) ∧
    ∀ row ∈ rows,
      (∀ c, br.userLoginsByID.get row.ID = some c →
        (loadEach br user t rows).2.1.userLoginsByID.get row.ID = some c ∧
        (loadEach br user t rows).2.2.1.logins.get row.ID = user.logins.get row.ID) ∧
      (br.userLoginsByID.get row.ID = none → ∃ tr,
        ((br.Network.LoadUserLogin tr { UserLogin := row, Client := none }).2 ≠ none →
          (loadEach br user t rows).2.1.userLoginsByID.get row.ID = none ∧
          (loadEach br user t rows).2.2.1.logins.get row.ID = user.logins.get row.ID) ∧
        ((br.Network.LoadUserLogin tr { UserLogin := row, Client := none }).2 = none →
          (loadEach br user t rows).2.1.userLoginsByID.get row.ID =
            some { UserLogin := row,
                   Client := (br.Network.LoadUserLogin tr
                     { UserLogin := row, Client := none }).1 } ∧
          (loadEach br user t rows).2.2.1.logins.get row.ID =
            some { UserLogin := row,
                   Client := (br.Network.LoadUserLogin tr
                     { UserLogin := row, Client := none }).1 })) := by
  induction rows generalizing br user t with
  | nil => simp [loadEach]
  | cons row rows ih =>
    simp only [List.map_cons, List.nodup_cons] at hnd
    obtain ⟨hhead, hnd⟩ := hnd
    have hne : ∀ r ∈ rows, r.ID ≠ row.ID := by
      intro r hr e
      exact hhead (List.mem_map.mpr ⟨r, hr, e⟩)
    cases hc : br.userLoginsByID.get row.ID with
    | some cached =>
      have hE : loadEach br user t (row :: rows) =
          (cached :: (loadEach br user t rows).1, (loadEach br user t rows).2) := by
        rw [loadEach]
        simp only [hc]
      obtain ⟨ih1, ih2⟩ := ih hnd br user t
      have hfr := (loadEach_frame rows br user t).2 row.ID hhead
      rw [hE]
      refine ⟨?_, ?_⟩
      · simp only [List.filterMap_cons, hfr.1, hc]
        rw [← ih1]
      · intro r hr
        rcases List.mem_cons.mp hr with hr | hr
        · subst hr
          refine ⟨fun c hcc => ⟨by rw [hfr.1]; exact hcc, hfr.2⟩, fun hn => ?_⟩
          rw [hc] at hn
          cases hn
        · exact ih2 r hr
    | none =>
      cases ha : (br.Network.LoadUserLogin t { UserLogin := row, Client := none }).2 with
      | some e =>
        have hE : loadEach br user t (row :: rows) =
            loadEach br user (t ++ [Call.LoadUserLogin row]) rows := by
          rw [loadEach]
          simp only [hc, ha]
        obtain ⟨ih1, ih2⟩ := ih hnd br user (t ++ [Call.LoadUserLogin row])
        have hfr := (loadEach_frame rows br user (t ++ [Call.LoadUserLogin row])).2 row.ID hhead
        rw [hE]
        refine ⟨?_, ?_⟩
        · simp only [List.filterMap_cons, hfr.1, hc]
          exact ih1
        · intro r hr
          rcases List.mem_cons.mp hr with hr | hr
          · subst hr
            refine ⟨fun c hcc => ?_, fun _ => ⟨t, fun _ => ⟨by rw [hfr.1]; exact hc, hfr.2⟩,
              fun hok => ?_⟩⟩
            · rw [hc] at hcc
              cases hcc
            · rw [ha] at hok
              cases hok
          · exact ih2 r hr
      | none =>
        have hE : loadEach br user t (row :: rows) =
            ({ UserLogin := row,
               Client := (br.Network.LoadUserLogin t { UserLogin := row, Client := none }).1 } ::
              (loadEach
                { br with
                  userLoginsByID := br.userLoginsByID.set row.ID
                    { UserLogin := row,
                      Client := (br.Network.LoadUserLogin t
                        { UserLogin := row, Client := none }).1 } }
                { user with
                  logins := user.logins.set row.ID
                    { UserLogin := row,
                      Client := (br.Network.LoadUserLogin t
                        { UserLogin := row, Client := none }).1 } }
                (t ++ [Call.LoadUserLogin row, Call.NewBridgeStateQueue row.ID]) rows).1,
              (loadEach
                { br with
                  userLoginsByID := br.userLoginsByID.set row.ID
                    { UserLogin := row,
                      Client := (br.Network.LoadUserLogin t
                        { UserLogin := row, Client := none }).1 } }
                { user with
                  logins := user.logins.set row.ID
                    { UserLogin := row,
                      Client := (br.Network.LoadUserLogin t
                        { UserLogin := row, Client := none }).1 } }
                (t ++ [Call.LoadUserLogin row, Call.NewBridgeStateQueue row.ID]) rows).2) := by
          rw [loadEach]
          simp only [hc, ha]
        obtain ⟨ih1, ih2⟩ := ih hnd
          { br with
            userLoginsByID := br.userLoginsByID.set row.ID
              { UserLogin := row,
                Client := (br.Network.LoadUserLogin t { UserLogin := row, Client := none }).1 } }
          { user with
            logins := user.logins.set row.ID
              { UserLogin := row,
                Client := (br.Network.LoadUserLogin t { UserLogin := row, Client := none }).1 } }
          (t ++ [Call.LoadUserLogin row, Call.NewBridgeStateQueue row.ID])
        have hfr := (loadEach_frame rows
          { br with
            userLoginsByID := br.userLoginsByID.set row.ID
              { UserLogin := row,
                Client := (br.Network.LoadUserLogin t { UserLogin := row, Client := none }).1 } }
          { user with
            logins := user.logins.set row.ID
              { UserLogin := row,
                Client := (br.Network.LoadUserLogin t { UserLogin := row, Client := none }).1 } }
          (t ++ [Call.LoadUserLogin row, Call.NewBridgeStateQueue row.ID])).2 row.ID hhead
        simp only [GoMap.get_set_self] at hfr
        rw [hE]
        refine ⟨?_, ?_⟩
        · simp only [List.filterMap_cons, hfr.1]
          rw [← ih1]
        · intro r hr
          rcases List.mem_cons.mp hr with hr | hr
          · subst hr
            refine ⟨fun c hcc => ?_, fun _ => ⟨t, fun hbad => ?_, fun _ => ⟨hfr.1, hfr.2⟩⟩⟩
            · rw [hc] at hcc
              cases hcc
            · exact absurd ha hbad
          · have h2 := ih2 r hr
            simp only [GoMap.get_set_ne _ _ _ _ (hne r hr)] at h2
            exact h2

/-- C12: with a known owning user, `loadManyUserLogins` never returns an error and never
faults; its output and final caches are those of going through the rows in order, taking
the cached instance for a cached id (no attach), omitting a row whose
`Network.LoadUserLogin` fails (both caches untouched) and registering a row whose attach
succeeds in both caches.  For rows with distinct ids the output is, in input order, the
final bridge-cache entry of each row that has one; a row cached beforehand keeps its
entry, an uncached row whose attach fails has no entry in the bridge cache and leaves the
user's cache as it was, and an uncached row whose attach succeeds is in both caches. -/
theorem loadManyUserLogins_soft_fail (getUser : GetUserByMXID) (br : Bridge) (t : Trace)
    (user : User) (rows : List database.UserLogin) :
    br.loadManyUserLogins getUser t (some user) rows =
      some ((some (loadEach br user t rows).1, none), (loadEach br user t rows).2.1,
        some (loadEach br user t rows).2.2.1, (loadEach br user t rows).2.2.2) ∧
    (∀ row, br.userLoginsByID.get row.ID = none →
      (br.Network.LoadUserLogin t { UserLogin := row, Client := none }).2 ≠ none →
      br.loadManyUserLogins getUser t (some user) [row] =
        some ((some [], none), br, some user, t ++ [Call.LoadUserLogin row])) ∧
    ((rows.map (fun row => row.ID)).Nodup →
      (loadEach br user t rows).1 =
        rows.filterMap
          (fun row => (loadEach br user t rows).2.1.userLoginsByID.get row.ID) ∧
      ∀ row ∈ rows,
        (∀ c, br.userLoginsByID.get row.ID = some c →
          (loadEach br user t rows).2.1.userLoginsByID.get row.ID = some c ∧
          (loadEach br user t rows).2.2.1.logins.get row.ID = user.logins.get row.ID) ∧
        (br.userLoginsByID.get row.ID = none → ∃ tr,
          ((br.Network.LoadUserLogin tr { UserLogin := row, Client := none }).2 ≠ none →
            (loadEach br user t rows).2.1.userLoginsByID.get row.ID = none ∧
            (loadEach br user t rows).2.2.1.logins.get row.ID = user.logins.get row.ID) ∧
          ((br.Network.LoadUserLogin tr { UserLogin := row, Client := none }).2 = none →
            (loadEach br user t rows).2.1.userLoginsByID.get row.ID =
              some { UserLogin := row,
                     Client := (br.Network.LoadUserLogin tr
                       { UserLogin := row, Client := none }).1 } ∧
            (loadEach br user t rows).2.2.1.logins.get row.ID =
              some { UserLogin := row,
                     Client := (br.Network.LoadUserLogin tr
                       { UserLogin := row, Client := none }).1 }))) := by
  refine ⟨?_, ?_, fun hnd => loadEach_outcomes rows hnd br user t⟩
  · unfold Bridge.loadManyUserLogins
    rw [loadManyUserLoginsLoop_known]
    simp
  · intro row hc hfail
    unfold Bridge.loadManyUserLogins
    rw [loadManyUserLoginsLoop_known]
    cases ha : (br.Network.LoadUserLogin t { UserLogin := row, Client := none }).2 with
    | none => exact absurd ha hfail
    | some e => simp [loadEach, hc, ha]

theorem loadManyUserLogins_soft_fail_witness :
    sampleBridgeLoggedIn.userLoginsByID.get (sampleLoginRow "broken").ID = none ∧
    (sampleBridgeLoggedIn.Network.LoadUserLogin []
      { UserLogin := sampleLoginRow "broken", Client := none }).2 ≠ none ∧
    sampleBridgeLoggedIn.loadManyUserLogins sampleGetUser [] (some sampleUser)
        [sampleLoginRow "broken"] =
      some ((some [], none), sampleBridgeLoggedIn, some sampleUser,
        [] ++ [Call.LoadUserLogin (sampleLoginRow "broken")]) :=
  ⟨rfl, by decide,
   (loadManyUserLogins_soft_fail sampleGetUser sampleBridgeLoggedIn [] sampleUser
      [sampleLoginRow "broken"]).2.1 (sampleLoginRow "broken") rfl (by decide)⟩

/-! ## Reaction metadata codec -/

/-- C16 as stated fails: not every `ReactionMetadata` survives encoding and decoding with
its emoji and its extension map contents (`sampleMetadataClash` holds a key `emoji` in
its extension map, which decoding never puts there). -/
theorem ReactionMetadata_roundtrip_counterexample :
    ¬ ∀ x : database.ReactionMetadata,
      ∃ y, database.ReactionMetadata.UnmarshalJSON x.MarshalJSON = .ok y ∧
        y.StandardReactionMetadata.Emoji = x.StandardReactionMetadata.Emoji ∧
        ∀ k, mapIndex y.Extra k = mapIndex x.Extra k := by
  intro h
  obtain ⟨y, hy, _, hk⟩ := h sampleMetadataClash
  have hdec : database.ReactionMetadata.UnmarshalJSON sampleMetadataClash.MarshalJSON =
      .ok { StandardReactionMetadata := { Emoji := "+1" }, Extra := some [] } := by
    rfl
  rw [hdec] at hy
  have hyy := Except.ok.inj hy
  have h2 := hk "emoji"
  rw [← hyy] at h2
  revert h2
  decide

theorem ReactionMetadata_decode_encode (x : database.ReactionMetadata)
    (hkey : mapIndex x.Extra "emoji" = none) :
    ∃ y, database.ReactionMetadata.UnmarshalJSON x.MarshalJSON = .ok y ∧
      y.StandardReactionMetadata.Emoji = x.StandardReactionMetadata.Emoji ∧
      (∃ entries, y.Extra = some entries) ∧
      (∀ k, mapIndex y.Extra k = mapIndex x.Extra k) ∧
      (x.Extra = none → y.Extra = some []) := by
  have hk0 : (GoMap.mk (x.Extra.getD [])).get "emoji" = none := by
    cases hx : x.Extra with
    | none => rfl
    | some entries =>
      rw [hx] at hkey
      exact hkey
  have hidx : ∀ k, mapIndex x.Extra k = (GoMap.mk (x.Extra.getD [])).get k := by
    intro k
    cases x.Extra <;> rfl
  by_cases he : x.StandardReactionMetadata.Emoji = ""
  · refine ⟨{ StandardReactionMetadata := { Emoji := "" },
              Extra := some ((GoMap.mk (x.Extra.getD [])).delete "emoji").entries }, ?_, ?_,
      ⟨_, rfl⟩, ?_, ?_⟩
    · simp [database.ReactionMetadata.UnmarshalJSON, database.ReactionMetadata.MarshalJSON,
        database.marshalMerge, database.unmarshalMerge, he, hk0]
    · exact he.symm
    · intro k
      rw [hidx]
      by_cases hk : k = "emoji"
      · rw [hk, hk0]
        exact GoMap.get_delete_self _ _
      · exact GoMap.get_delete_ne _ _ _ hk
    · intro hn
      simp [hn, GoMap.delete]
  · refine ⟨{ StandardReactionMetadata := { Emoji := x.StandardReactionMetadata.Emoji },
              Extra := some ((GoMap.mk ((GoMap.mk (x.Extra.getD [])).set "emoji"
                (database.AnyValue.str x.StandardReactionMetadata.Emoji)).entries).delete
                  "emoji").entries }, ?_, rfl, ⟨_, rfl⟩, ?_, ?_⟩
    · have hget := GoMap.get_set_self (GoMap.mk (x.Extra.getD [])) "emoji"
        (database.AnyValue.str x.StandardReactionMetadata.Emoji)
      simp only [database.ReactionMetadata.UnmarshalJSON, database.ReactionMetadata.MarshalJSON,
        database.marshalMerge, database.unmarshalMerge, he, if_false, hget]
    · intro k
      rw [hidx]
      by_cases hk : k = "emoji"
      · rw [hk, hk0]
        exact GoMap.get_delete_self _ _
      · exact (GoMap.get_delete_ne _ _ _ hk).trans (GoMap.get_set_ne _ _ _ _ hk)
    · intro hn
      simp [hn, GoMap.delete, GoMap.set]

/-- C16, amended: for every `ReactionMetadata` whose extension map holds no key `emoji`,
decoding its encoding succeeds with the same emoji and a non-nil extension map with the
same contents (so every other top-level key is in the extension map and `emoji` is only in
the known field); when the extension map was nil, the decoded one is empty and non-nil. -/
theorem ReactionMetadata_roundtrip (x : database.ReactionMetadata)
    (hkey : mapIndex x.Extra "emoji" = none) :
    ∃ y, database.ReactionMetadata.UnmarshalJSON x.MarshalJSON = .ok y ∧
      y.StandardReactionMetadata.Emoji = x.StandardReactionMetadata.Emoji ∧
      (∃ entries, y.Extra = some entries) ∧
      (∀ k, mapIndex y.Extra k = mapIndex x.Extra k) ∧
      (x.Extra = none → y.Extra = some []) :=
  ReactionMetadata_decode_encode x hkey

theorem ReactionMetadata_roundtrip_witness :
    mapIndex sampleMetadata.Extra "emoji" = none ∧
    ∃ y, database.ReactionMetadata.UnmarshalJSON sampleMetadata.MarshalJSON = .ok y ∧
      y.StandardReactionMetadata.Emoji = sampleMetadata.StandardReactionMetadata.Emoji ∧
      (∃ entries, y.Extra = some entries) ∧
      (∀ k, mapIndex y.Extra k = mapIndex sampleMetadata.Extra k) ∧
      (sampleMetadata.Extra = none → y.Extra = some []) :=
  ⟨by decide, ReactionMetadata_roundtrip sampleMetadata (by decide)⟩

/-! ## Reaction store (`Upsert`, `Delete`, `GetByID`) -/

theorem time.wrapInt64_range (x : Int) :
    -(2 ^ 63) ≤ time.wrapInt64 x ∧ time.wrapInt64 x < 2 ^ 63 := by
  unfold time.wrapInt64
  have h1 := Int.emod_nonneg (x + 2 ^ 63) (b := 2 ^ 64) (by norm_num)
  have h2 := Int.emod_lt_of_pos (x + 2 ^ 63) (b := 2 ^ 64) (by norm_num)
  constructor <;> omega

theorem time.wrapInt64_of_range (n : Int) (h1 : -(2 ^ 63) ≤ n) (h2 : n < 2 ^ 63) :
    time.wrapInt64 n = n := by
  unfold time.wrapInt64
  rw [Int.emod_eq_of_lt (by omega) (by omega)]
  omega

theorem time.UnixNano_Unix (n : Int) (h1 : -(2 ^ 63) ≤ n) (h2 : n < 2 ^ 63) :
    (time.Unix 0 n).UnixNano = n := by
  unfold time.Unix time.Time.UnixNano
  simp only []
  rw [Int.toNat_of_nonneg (Int.emod_nonneg n (by norm_num)), Int.zero_add,
    Int.ediv_add_emod']
  exact time.wrapInt64_of_range n h1 h2

theorem time.UnixNano_roundtrip (t : time.Time) :
    (time.Unix 0 t.UnixNano).UnixNano = t.UnixNano := by
  have h := time.wrapInt64_range (t.sec * 1000000000 + t.nsec)
  exact time.UnixNano_Unix _ h.1 h.2

theorem upsertReactionQuery_absent (table : database.ReactionTable)
    (v : database.ReactionRow) (h : ∀ x ∈ table, x.conflictKey ≠ v.conflictKey) :
    database.upsertReactionQuery table v = table ++ [v] := by
  unfold database.upsertReactionQuery
  rw [if_neg]
  simp only [List.any_eq_true, decide_eq_true_eq, not_exists, not_and]
  exact h

theorem upsertReactionQuery_present (table : database.ReactionTable)
    (v : database.ReactionRow) (h : ∃ x ∈ table, x.conflictKey = v.conflictKey) :
    database.upsertReactionQuery table v =
      table.map (fun row => if row.conflictKey = v.conflictKey then row.updatedBy v else row) := by
  unfold database.upsertReactionQuery
  rw [if_pos]
  · rfl
  · simp only [List.any_eq_true, decide_eq_true_eq]
    exact h

theorem conflictKey_updated (v x : database.ReactionRow) :
    (if x.conflictKey = v.conflictKey then x.updatedBy v else x).conflictKey = x.conflictKey ∧
    (if x.conflictKey = v.conflictKey then x.updatedBy v else x).room_id = x.room_id := by
  split <;> exact ⟨rfl, rfl⟩

theorem ReactionTable.unique_iff (table : database.ReactionTable) :
    table.Unique ↔ (table.map (fun x => x.conflictKey)).Nodup := by
  unfold database.ReactionTable.Unique List.Nodup
  rw [List.pairwise_map]

theorem upsertReactionQuery_keys (table : database.ReactionTable) (v : database.ReactionRow) :
    (database.upsertReactionQuery table v).map (fun x => x.conflictKey) =
      if (∃ x ∈ table, x.conflictKey = v.conflictKey) then table.map (fun x => x.conflictKey)
      else table.map (fun x => x.conflictKey) ++ [v.conflictKey] := by
  by_cases h : ∃ x ∈ table, x.conflictKey = v.conflictKey
  · rw [if_pos h, upsertReactionQuery_present table v h, List.map_map]
    apply List.map_congr_left
    intro x _
    exact (conflictKey_updated v x).1
  · rw [if_neg h, upsertReactionQuery_absent table v (by
      intro x hx e
      exact h ⟨x, hx, e⟩)]
    simp

theorem upsertReactionQuery_unique (table : database.ReactionTable) (v : database.ReactionRow)
    (hu : table.Unique) : (database.upsertReactionQuery table v).Unique := by
  rw [ReactionTable.unique_iff] at hu ⊢
  rw [upsertReactionQuery_keys]
  split
  · exact hu
  · next h =>
    rw [List.nodup_append]
    refine ⟨hu, List.nodup_singleton _, ?_⟩
    intro k hk hk2
    rw [List.mem_singleton] at hk2
    obtain ⟨x, hx, hxk⟩ := List.mem_map.mp hk
    exact h ⟨x, hx, hxk.trans hk2⟩

theorem upsertReactionQuery_values (table : database.ReactionTable) (v : database.ReactionRow) :
    (∃ x ∈ database.upsertReactionQuery table v, x.conflictKey = v.conflictKey) ∧
    ∀ x ∈ database.upsertReactionQuery table v, x.conflictKey = v.conflictKey →
      x.mxid = v.mxid ∧ x.timestamp = v.timestamp ∧ x.metadata = v.metadata := by
  by_cases h : ∃ x ∈ table, x.conflictKey = v.conflictKey
  · rw [upsertReactionQuery_present table v h]
    constructor
    · obtain ⟨x, hx, hk⟩ := h
      exact ⟨x.updatedBy v, List.mem_map.mpr ⟨x, hx, by rw [if_pos hk]⟩, hk⟩
    · intro y hy hyk
      obtain ⟨x, _, hxy⟩ := List.mem_map.mp hy
      by_cases hk : x.conflictKey = v.conflictKey
      · rw [if_pos hk] at hxy
        rw [← hxy]
        exact ⟨rfl, rfl, rfl⟩
      · rw [if_neg hk] at hxy
        rw [← hxy] at hyk
        exact absurd hyk hk
  · have h2 : ∀ x ∈ table, x.conflictKey ≠ v.conflictKey := by
      intro x hx e
      exact h ⟨x, hx, e⟩
    rw [upsertReactionQuery_absent table v h2]
    constructor
    · exact ⟨v, by simp, rfl⟩
    · intro y hy hyk
      rcases List.mem_append.mp hy with hy | hy
      · exact absurd hyk (h2 y hy)
      · rw [List.mem_singleton] at hy
        rw [hy]
        exact ⟨rfl, rfl, rfl⟩

theorem upsertReactionQuery_key_mem (table : database.ReactionTable) (v y : database.ReactionRow)
    (hy : y ∈ database.upsertReactionQuery table v) :
    y.conflictKey = v.conflictKey ∨ ∃ y0 ∈ table, y0.conflictKey = y.conflictKey := by
  have hk : y.conflictKey ∈ (database.upsertReactionQuery table v).map (fun x => x.conflictKey) :=
    List.mem_map.mpr ⟨y, hy, rfl⟩
  rw [upsertReactionQuery_keys] at hk
  split at hk
  · obtain ⟨y0, h0, e0⟩ := List.mem_map.mp hk
    exact Or.inr ⟨y0, h0, e0⟩
  · rcases List.mem_append.mp hk with hk | hk
    · obtain ⟨y0, h0, e0⟩ := List.mem_map.mp hk
      exact Or.inr ⟨y0, h0, e0⟩
    · exact Or.inl (List.mem_singleton.mp hk)

theorem matchesID_of_conflictKey (y z : database.ReactionRow)
    (h : y.conflictKey = z.conflictKey) (b m p s e : String) :
    y.matchesID b m p s e = z.matchesID b m p s e := by
  simp only [database.ReactionRow.conflictKey, Prod.mk.injEq] at h
  obtain ⟨h1, _, h3, h4, h5, h6⟩ := h
  simp only [database.ReactionRow.matchesID, h1, h3, h4, h5, h6]

theorem ReactionTable.filter_singleton (table : database.ReactionTable) (hu : table.Unique)
    (x : database.ReactionRow) (hx : x ∈ table) (p : database.ReactionRow → Bool)
    (hp : p x = true) (hpk : ∀ y ∈ table, p y = true → y.conflictKey = x.conflictKey) :
    table.filter p = [x] := by
  induction table with
  | nil => cases hx
  | cons a rest ih =>
    unfold database.ReactionTable.Unique at hu
    rw [List.pairwise_cons] at hu
    obtain ⟨ha, hrest⟩ := hu
    rcases List.mem_cons.mp hx with hxa | hxr
    · subst hxa
      rw [List.filter_cons, if_pos hp]
      congr 1
      rw [List.filter_eq_nil_iff]
      intro y hy hpy
      exact ha y hy (hpk y (List.mem_cons_of_mem _ hy) hpy).symm
    · have hpa : ¬ p a = true := by
        intro hpa
        exact ha x hxr (hpk a (List.mem_cons_self _ _) hpa)
      rw [List.filter_cons, if_neg hpa]
      exact ih hrest hxr (fun y hy => hpk y (List.mem_cons_of_mem _ hy))

theorem Upsert_eq (rq : database.ReactionQuery) (table : database.ReactionTable)
    (r : database.Reaction) (hb : r.BridgeID = rq.BridgeID) :
    rq.Upsert table r =
      some (r.sqlVariables.1, database.upsertReactionQuery table r.sqlVariables.2) := by
  have hr : ({ r with BridgeID := rq.BridgeID } : database.Reaction) = r := by
    rw [← hb]
  simp only [database.ReactionQuery.Upsert, database.ensureBridgeIDMatches, hb, if_true, hr]

theorem sqlVariables_matches (rq : database.ReactionQuery) (r : database.Reaction)
    (hb : r.BridgeID = rq.BridgeID) (x : database.ReactionRow)
    (hx : x.conflictKey = r.sqlVariables.2.conflictKey) :
    x.matchesID rq.BridgeID r.MessageID r.MessagePartID r.SenderID r.EmojiID = true := by
  rw [matchesID_of_conflictKey x _ hx]
  unfold database.Reaction.sqlVariables
  cases r.Metadata.Extra <;> simp [database.ReactionRow.matchesID, hb]

theorem sqlVariables_row (r : database.Reaction) :
    r.sqlVariables.2 =
      { bridge_id := r.BridgeID, message_id := r.MessageID, message_part_id := r.MessagePartID,
        sender_id := r.SenderID, emoji_id := r.EmojiID, room_id := r.Room.ID,
        room_receiver := r.Room.Receiver, mxid := r.MXID, timestamp := r.Timestamp.UnixNano,
        metadata := r.Metadata.MarshalJSON } := by
  unfold database.Reaction.sqlVariables
  cases h : r.Metadata.Extra with
  | none => simp [database.ReactionMetadata.MarshalJSON, database.marshalMerge, h]
  | some entries => rfl

theorem Scan_stored_metadata (metadata : database.ReactionMetadata) (x : database.ReactionRow)
    (hkey : mapIndex metadata.Extra "emoji" = none)
    (hm : x.metadata = metadata.MarshalJSON) :
    ∃ y, database.Reaction.Scan x =
        .ok { BridgeID := x.bridge_id, MessageID := x.message_id,
              MessagePartID := x.message_part_id, SenderID := x.sender_id,
              EmojiID := x.emoji_id, Room := { ID := x.room_id, Receiver := x.room_receiver },
              MXID := x.mxid, Timestamp := time.Unix 0 x.timestamp, Metadata := y } ∧
      y.StandardReactionMetadata.Emoji = metadata.StandardReactionMetadata.Emoji ∧
      (∀ k, mapIndex y.Extra k = mapIndex metadata.Extra k) ∧
      y.Extra ≠ none := by
  obtain ⟨y, hy, hemoji, ⟨entries, hentries⟩, hcontents, _⟩ :=
    ReactionMetadata_decode_encode metadata hkey
  refine ⟨y, ?_, hemoji, hcontents, ?_⟩
  · simp only [database.Reaction.Scan, hm, hy, hentries]
  · rw [hentries]
    simp

/-- Statement `getReactionByIDQuery` does not filter on the room receiver: the table holds
the reaction of room receiver `A`; the reaction of room receiver `B` (same message, part,
sender and emoji) is upserted twice.  The table stays unique on the conflict key and holds
the second call's values in the row of `B`, but `GetByID` returns the row of `A`. -/
theorem GetByID_ignores_room_receiver :
    database.ReactionTable.Unique [sampleReactionRow "A" "$a" 1] ∧
    (sampleReaction "B" "$b1" 2).sqlVariables.2.conflictKey =
      (sampleReaction "B" "$b2" 3).sqlVariables.2.conflictKey ∧
    ((sampleReactionQuery.Upsert [sampleReactionRow "A" "$a" 1]
        (sampleReaction "B" "$b1" 2)).bind
      (fun s => (sampleReactionQuery.Upsert s.2 (sampleReaction "B" "$b2" 3)).map
        (fun s2 => s2.2))) =
      some [sampleReactionRow "A" "$a" 1, sampleReactionRow "B" "$b2" 3] ∧
    (match sampleReactionQuery.GetByID
        [sampleReactionRow "A" "$a" 1, sampleReactionRow "B" "$b2" 3] "m1" "p1" "u1" "e1" with
      | .ok (some r) => (r.MXID, r.Room.Receiver)
      | _ => ("", "")) = ("$a", "A") := by
  refine ⟨?_, ?_, ?_, ?_⟩
  · exact List.pairwise_singleton _ _
  · decide
  · decide
  · decide

/-- C17 as stated fails: on the empty table (unique on the conflict key) a reaction is
upserted, and then `sampleReactionClash`, of the same key, whose extension map holds the
key `emoji`.  The table then holds the one row of that key and `GetByID` for the key
returns it without error, but its metadata is not the second call's metadata: the
extension map comes back without the key `emoji`. -/
theorem Upsert_GetByID_metadata_counterexample :
    database.ReactionTable.Unique [] ∧
    (sampleReaction "A" "$a0" 0).sqlVariables.2.conflictKey =
      sampleReactionClash.sqlVariables.2.conflictKey ∧
    ((sampleReactionQuery.Upsert [] (sampleReaction "A" "$a0" 0)).bind
      (fun s => (sampleReactionQuery.Upsert s.2 sampleReactionClash).map
        (fun s2 => s2.2))) = some [sampleReactionClash.sqlVariables.2] ∧
    sampleReactionQuery.GetByID [sampleReactionClash.sqlVariables.2]
        sampleReactionClash.MessageID sampleReactionClash.MessagePartID
        sampleReactionClash.SenderID sampleReactionClash.EmojiID =
      .ok (some { sampleReactionClash with
        Timestamp := time.Unix 0 1000000000
        Metadata := { StandardReactionMetadata := { Emoji := "+1" }, Extra := some [] } }) ∧
    mapIndex sampleReactionClash.Metadata.Extra "emoji" = some (database.AnyValue.str "heart") ∧
    mapIndex (some []) "emoji" = none := by
  refine ⟨List.Pairwise.nil, ?_, ?_, ?_, ?_, ?_⟩
  · decide
  · decide
  · rfl
  · decide
  · decide

/-- C17, amended: over a table unique on the conflict key, `Upsert` of a reaction of the
store's bridge keeps the table unique; when no row has the reaction's key it appends
exactly the reaction's row; when a row has it, the table keeps its length, every row with
another key stays as it is in its place and the row with the key has only `mxid`,
`timestamp` and `metadata` replaced.  After a second `Upsert` on the same key the table
holds exactly one row with that key, carrying the second call's local-event id, its
timestamp as a count of nanoseconds and its encoded metadata, and that row is among the
rows the query of `GetByID` selects for the key.  When the second call's extension map
holds no key `emoji`, that row is scanned without error into a reaction with the key's
bridge, message, part, sender, emoji and room receiver, the row's room id, the second
call's local-event id, timestamp (as a count of nanoseconds), emoji and extension map
contents, and this reaction is what `GetByID` returns whenever the row is the first one
its query selects. -/
theorem Upsert_replaces_mutable (rq : database.ReactionQuery) (table : database.ReactionTable)
    (r : database.Reaction) (hb : r.BridgeID = rq.BridgeID) (hu : table.Unique) :
    ∃ table1, rq.Upsert table r = some (r.sqlVariables.1, table1) ∧ table1.Unique ∧
      ((∀ x ∈ table, x.conflictKey ≠ r.sqlVariables.2.conflictKey) →
        table1 = table ++ [r.sqlVariables.2]) ∧
      ((∃ x ∈ table, x.conflictKey = r.sqlVariables.2.conflictKey) →
        table1.length = table.length ∧
        ∀ (i : Nat) (x : database.ReactionRow), table[i]? = some x →
          (x.conflictKey ≠ r.sqlVariables.2.conflictKey → table1[i]? = some x) ∧
          (x.conflictKey = r.sqlVariables.2.conflictKey →
            table1[i]? = some
              { x with
                mxid := r.sqlVariables.2.mxid, timestamp := r.sqlVariables.2.timestamp,
                metadata := r.sqlVariables.2.metadata })) ∧
      ∀ r2 : database.Reaction, r2.BridgeID = rq.BridgeID →
        r2.sqlVariables.2.conflictKey = r.sqlVariables.2.conflictKey →
        ∃ table2 x, rq.Upsert table1 r2 = some (r2.sqlVariables.1, table2) ∧
          table2.Unique ∧ table2.length = table1.length ∧
          table2.filter (fun y => decide (y.conflictKey = r2.sqlVariables.2.conflictKey)) = [x] ∧
          x.mxid = r2.MXID ∧ x.timestamp = r2.Timestamp.UnixNano ∧
          x.metadata = r2.Metadata.MarshalJSON ∧
          x ∈ database.getReactionByIDQuery table2 rq.BridgeID r2.MessageID r2.MessagePartID
            r2.SenderID r2.EmojiID ∧
          (mapIndex r2.Metadata.Extra "emoji" = none →
            ∃ s, database.Reaction.Scan x = .ok s ∧
              s.BridgeID = r2.BridgeID ∧ s.MessageID = r2.MessageID ∧
              s.MessagePartID = r2.MessagePartID ∧ s.SenderID = r2.SenderID ∧
              s.EmojiID = r2.EmojiID ∧ s.Room.Receiver = r2.Room.Receiver ∧
              s.Room.ID = x.room_id ∧
              s.MXID = r2.MXID ∧
              s.Timestamp.UnixNano = r2.Timestamp.UnixNano ∧
              s.Metadata.StandardReactionMetadata.Emoji =
                r2.Metadata.StandardReactionMetadata.Emoji ∧
              (∀ k, mapIndex s.Metadata.Extra k = mapIndex r2.Metadata.Extra k) ∧
              s.Metadata.Extra ≠ none ∧
              ∀ rest, database.getReactionByIDQuery table2 rq.BridgeID r2.MessageID
                  r2.MessagePartID r2.SenderID r2.EmojiID = x :: rest →
                rq.GetByID table2 r2.MessageID r2.MessagePartID r2.SenderID r2.EmojiID =
                  .ok (some s)) := by
  refine ⟨database.upsertReactionQuery table r.sqlVariables.2, Upsert_eq rq table r hb,
    upsertReactionQuery_unique table _ hu, upsertReactionQuery_absent table _, ?_, ?_⟩
  · intro hex
    rw [upsertReactionQuery_present table _ hex]
    refine ⟨List.length_map _ _, ?_⟩
    intro i x hix
    rw [List.getElem?_map, hix]
    constructor
    · intro hne
      simp [hne]
    · intro heq
      simp [heq, database.ReactionRow.updatedBy]
  · intro r2 hb2 hk
    have hu1 := upsertReactionQuery_unique table r.sqlVariables.2 hu
    obtain ⟨⟨x1, hx1, hx1k⟩, _⟩ := upsertReactionQuery_values table r.sqlVariables.2
    have hex : ∃ y ∈ database.upsertReactionQuery table r.sqlVariables.2,
        y.conflictKey = r2.sqlVariables.2.conflictKey := ⟨x1, hx1, hx1k.trans hk.symm⟩
    have hu2 := upsertReactionQuery_unique _ r2.sqlVariables.2 hu1
    obtain ⟨⟨x, hx, hxk⟩, hvals⟩ :=
      upsertReactionQuery_values (database.upsertReactionQuery table r.sqlVariables.2)
        r2.sqlVariables.2
    obtain ⟨hv1, hv2, hv3⟩ := hvals x hx hxk
    have hrow := sqlVariables_row r2
    rw [hrow] at hv1 hv2 hv3
    simp only [] at hv1 hv2 hv3
    have hmatch := sqlVariables_matches rq r2 hb2 x hxk
    have hkey2 := hxk
    rw [hrow] at hkey2
    simp only [database.ReactionRow.conflictKey, Prod.mk.injEq] at hkey2
    obtain ⟨hk1, hk2, hk3, hk4, hk5, hk6⟩ := hkey2
    refine ⟨_, x, Upsert_eq rq _ r2 hb2, hu2, ?_, ?_, hv1, hv2, hv3, ?_, ?_⟩
    · rw [upsertReactionQuery_present _ _ hex]
      exact List.length_map _ _
    · apply ReactionTable.filter_singleton _ hu2 x hx
      · simp [hxk]
      · intro y _ hy
        rw [decide_eq_true_eq] at hy
        exact hy.trans hxk.symm
    · unfold database.getReactionByIDQuery
      exact List.mem_filter.mpr ⟨hx, hmatch⟩
    · intro hkey
      obtain ⟨y, hscan, hemoji, hcontents, hnonnil⟩ :=
        Scan_stored_metadata r2.Metadata x hkey hv3
      refine ⟨_, hscan, hk1, hk3, hk4, hk5, hk6, hk2, rfl, hv1, ?_, hemoji, hcontents,
        hnonnil, ?_⟩
      · simp only [hv2]
        exact time.UnixNano_roundtrip r2.Timestamp
      · intro rest hsel
        unfold database.ReactionQuery.GetByID
        rw [hsel]
        simp only [hscan]

theorem Upsert_replaces_mutable_witness :
    (sampleReaction "B" "$b1" 2).BridgeID = sampleReactionQuery.BridgeID ∧
    database.ReactionTable.Unique [sampleReactionRow "A" "$a" 1] ∧
    (sampleReaction "B" "$b2" 3).BridgeID = sampleReactionQuery.BridgeID ∧
    (sampleReaction "B" "$b2" 3).sqlVariables.2.conflictKey =
      (sampleReaction "B" "$b1" 2).sqlVariables.2.conflictKey ∧
    mapIndex (sampleReaction "B" "$b2" 3).Metadata.Extra "emoji" = none ∧
    ∃ table1 table2 x s,
      sampleReactionQuery.Upsert [sampleReactionRow "A" "$a" 1] (sampleReaction "B" "$b1" 2) =
        some ((sampleReaction "B" "$b1" 2).sqlVariables.1, table1) ∧
      table1.Unique ∧
      sampleReactionQuery.Upsert table1 (sampleReaction "B" "$b2" 3) =
        some ((sampleReaction "B" "$b2" 3).sqlVariables.1, table2) ∧
      table2.filter (fun y =>
        decide (y.conflictKey = (sampleReaction "B" "$b2" 3).sqlVariables.2.conflictKey)) = [x] ∧
      x ∈ database.getReactionByIDQuery table2 sampleReactionQuery.BridgeID "m1" "p1" "u1" "e1" ∧
      database.Reaction.Scan x = .ok s ∧ s.MXID = "$b2" :=
  match Upsert_replaces_mutable sampleReactionQuery [sampleReactionRow "A" "$a" 1]
    (sampleReaction "B" "$b1" 2) rfl (List.pairwise_singleton _ _) with
  | ⟨table1, h1, h2, _, _, h5⟩ =>
    match h5 (sampleReaction "B" "$b2" 3) rfl (by decide) with
    | ⟨table2, x, g1, _, _, g4, _, _, _, g8, g9⟩ =>
      match g9 (by decide) with
      | ⟨s, k1, _, _, _, _, _, _, _, k9, _⟩ =>
        ⟨rfl, List.pairwise_singleton _ _, rfl, by decide, by decide,
          table1, table2, x, s, h1, h2, g1, g4, g8, k1, k9⟩

/-- C18 (the code departs from the claim): the table holds, unique on the conflict key, the
same reaction (message, part, sender, emoji) for the room receivers `A` and `B`.
`Delete` of the reaction of `A` removes both rows, because `deleteReactionQuery` does not
filter on `room_receiver`. -/
theorem Delete_ignores_room_receiver :
    (sampleReactionRow "A" "$a" 1).conflictKey ≠ (sampleReactionRow "B" "$b" 2).conflictKey ∧
    (sampleReactionRow "B" "$b" 2).room_receiver = "B" ∧
    sampleReactionQuery.Delete [sampleReactionRow "A" "$a" 1, sampleReactionRow "B" "$b" 2]
      (sampleReaction "A" "$a" 1) = some [] := by
  decide

/-! ## Reaction row codec (`sqlVariables`, `Scan`) -/

theorem MarshalJSON_sqlVariables (r : database.Reaction) :
    r.sqlVariableList.1.Metadata.MarshalJSON = r.Metadata.MarshalJSON ∧
    r.sqlVariableList.1 =
      { r with Metadata.Extra := some (r.Metadata.Extra.getD []) } := by
  unfold database.Reaction.sqlVariableList
  cases h : r.Metadata.Extra with
  | none =>
    simp [database.ReactionMetadata.MarshalJSON, database.marshalMerge, h]
  | some entries =>
    simp only [Option.getD_some, true_and]
    rw [← h]

theorem ScanValues_nonnil (values : List database.SQLValue) (s : database.Reaction)
    (h : database.Reaction.ScanValues values = .ok s) : s.Metadata.Extra ≠ none := by
  unfold database.Reaction.ScanValues at h
  split at h
  · split at h
    · cases h
    · next metadata _ =>
      have hs := Except.ok.inj h
      rw [← hs]
      cases hm : metadata.Extra <;> simp [hm]
  · cases h

theorem readColumns_storeColumns (r : database.Reaction) :
    database.readColumns (database.storeColumns r.sqlVariableList.2) =
      some r.sqlVariableList.2 := by
  rfl

/-- C21 as stated fails: not every `Reaction` is scanned back from its own column values
with its metadata (`sampleReactionClash` holds a key `emoji` in its extension map, which
decoding never puts there). -/
theorem Reaction_codec_counterexample :
    ¬ ∀ r : database.Reaction,
      ∃ s, database.Reaction.ScanValues r.sqlVariableList.2 = .ok s ∧
        s.Metadata.StandardReactionMetadata.Emoji =
          r.Metadata.StandardReactionMetadata.Emoji ∧
        ∀ k, mapIndex s.Metadata.Extra k = mapIndex r.Metadata.Extra k := by
  intro h
  obtain ⟨s, hs, _, hk⟩ := h sampleReactionClash
  have hscan : database.Reaction.ScanValues sampleReactionClash.sqlVariableList.2 =
      .ok { sampleReactionClash with
            Timestamp := time.Unix 0 1000000000
            Metadata := { StandardReactionMetadata := { Emoji := "+1" }, Extra := some [] } } := by
    rfl
  rw [hscan] at hs
  have hss := Except.ok.inj hs
  have h2 := hk "emoji"
  rw [← hss] at h2
  revert h2
  decide

/-- C21, amended: for every `Reaction` whose extension map holds no key `emoji`, the ten
values of `sqlVariables`, written under the columns of the upsert statement and read back
in the column order of the select statement (the same order), are scanned by `Scan` into a
`Reaction` with the same bridge id, message id, message-part id, sender id, emoji id, room
id, room receiver and local-event id, the same timestamp as a count of nanoseconds since
the epoch, the same emoji and the same extension map contents, a nil extension map coming
back empty and non-nil.  After `sqlVariables`, and after any successful `Scan`, the
extension map is not nil. -/
theorem Reaction_codec_roundtrip (r : database.Reaction)
    (hkey : mapIndex r.Metadata.Extra "emoji" = none) :
    database.upsertColumns = database.selectColumns ∧
    database.readColumns (database.storeColumns r.sqlVariableList.2) =
      some r.sqlVariableList.2 ∧
    r.sqlVariableList = (r.sqlVariables.1, r.sqlVariables.2.values) ∧
    (∀ row : database.ReactionRow,
      database.Reaction.ScanValues row.values = database.Reaction.Scan row) ∧
    r.sqlVariableList.1.Metadata.Extra ≠ none ∧
    r.sqlVariableList.1 = { r with Metadata.Extra := some (r.Metadata.Extra.getD []) } ∧
    (∀ values s, database.Reaction.ScanValues values = .ok s → s.Metadata.Extra ≠ none) ∧
    ∃ s, database.Reaction.ScanValues r.sqlVariableList.2 = .ok s ∧
      s.BridgeID = r.BridgeID ∧ s.MessageID = r.MessageID ∧
      s.MessagePartID = r.MessagePartID ∧ s.SenderID = r.SenderID ∧
      s.EmojiID = r.EmojiID ∧ s.Room.ID = r.Room.ID ∧ s.Room.Receiver = r.Room.Receiver ∧
      s.MXID = r.MXID ∧
      s.Timestamp.UnixNano = r.Timestamp.UnixNano ∧
      s.Metadata.StandardReactionMetadata.Emoji =
        r.Metadata.StandardReactionMetadata.Emoji ∧
      (∀ k, mapIndex s.Metadata.Extra k = mapIndex r.Metadata.Extra k) ∧
      s.Metadata.Extra ≠ none ∧
      (r.Metadata.Extra = none → s.Metadata.Extra = some []) := by
  obtain ⟨hmar, hleft⟩ := MarshalJSON_sqlVariables r
  obtain ⟨y, hy, hemoji, ⟨entries, hentries⟩, hcontents, hnil⟩ :=
    ReactionMetadata_decode_encode r.Metadata hkey
  refine ⟨rfl, readColumns_storeColumns r, rfl, fun row => rfl, ?_, hleft,
    ScanValues_nonnil, ?_⟩
  · rw [hleft]
    simp
  · have hscan : database.Reaction.ScanValues r.sqlVariableList.2 =
        .ok { BridgeID := r.BridgeID, MessageID := r.MessageID,
              MessagePartID := r.MessagePartID, SenderID := r.SenderID,
              EmojiID := r.EmojiID, Room := { ID := r.Room.ID, Receiver := r.Room.Receiver },
              MXID := r.MXID, Timestamp := time.Unix 0 r.Timestamp.UnixNano,
              Metadata := y } := by
      have hl : r.sqlVariableList.2 =
          [database.SQLValue.text r.BridgeID, database.SQLValue.text r.MessageID,
            database.SQLValue.text r.MessagePartID, database.SQLValue.text r.SenderID,
            database.SQLValue.text r.EmojiID, database.SQLValue.text r.Room.ID,
            database.SQLValue.text r.Room.Receiver, database.SQLValue.text r.MXID,
            database.SQLValue.integer r.Timestamp.UnixNano,
            database.SQLValue.json r.Metadata.MarshalJSON] := by
        rw [← hmar]
        unfold database.Reaction.sqlVariableList
        cases r.Metadata.Extra <;> rfl
      rw [hl]
      simp only [database.Reaction.ScanValues, hy, hentries]
    refine ⟨_, hscan, rfl, rfl, rfl, rfl, rfl, rfl, rfl, rfl, ?_, hemoji, hcontents, ?_, hnil⟩
    · exact time.UnixNano_roundtrip r.Timestamp
    · rw [hentries]
      simp

theorem Reaction_codec_roundtrip_witness :
    mapIndex (sampleReaction "A" "$a" 1).Metadata.Extra "emoji" = none ∧
    database.readColumns (database.storeColumns (sampleReaction "A" "$a" 1).sqlVariableList.2) =
      some (sampleReaction "A" "$a" 1).sqlVariableList.2 ∧
    ∃ s, database.Reaction.ScanValues (sampleReaction "A" "$a" 1).sqlVariableList.2 = .ok s ∧
      s.BridgeID = (sampleReaction "A" "$a" 1).BridgeID :=
  match Reaction_codec_roundtrip (sampleReaction "A" "$a" 1) (by decide) with
  | ⟨_, h2, _, _, _, _, _, s, hs, hb, _⟩ => ⟨by decide, h2, s, hs, hb⟩

end bridgev2
